import Mathlib

/-!
Verification development for the minilang front end (scanner, parser,
type checker). Each Rust source function is shallowly embedded as an
executable Lean definition; loops and recursive descent are given an
explicit fuel parameter (value none / outOfFuel means the fuel ran out,
an artifact of the embedding, not a behaviour of the program).

Modelling notes, recorded once here:
- src/types.rs names its type enum Type; that name is reserved in Lean,
  so it is embedded as Ty (constructors unchanged).
- Rust HashMap is modelled as an association list with insert-replace
  semantics (insertA) and first-match lookup (lookupA); only lookup
  results and entry counts are observed, never iteration order.
- src/ast.rs makes the f64 payload of a float literal hashable through
  its bit pattern; the embedding carries the literal's lexeme instead
  (structure FloatLit).  No claim below depends on identifying two
  distinct lexemes that denote the same f64 value.
- The sources under src/ mix revisions of the repository and do not
  compile together as Rust.  Where a function hits such a seam
  (a match with no arm for a constructor that exists in types.rs or
  ast.rs, a struct literal missing a field), the embedding models the
  missing case as the distinguished outcome TcRes.stuck, or narrows the
  produced record, with a comment at the definition.
- Scanner.is_eof compares a char index with String::len (a byte count);
  the embedding uses a List Char and its length, which agrees with the
  source on the ASCII inputs all claims below use.
-/

namespace Minilang

/-- Source position, from src/pos.rs. -/
structure Pos where
  line : Nat
  col : Nat
deriving DecidableEq, Repr

/-- Token kinds, from src/token.rs. -/
inductive TokenType where
  | Int
  | Float
  | Id
  | Plus
  | Minus
  | Star
  | Slash
  | Equal
  | LParen
  | RParen
  | Colon
  | Semicolon
  | Comma
  | If
  | Then
  | Else
  | End
  | While
  | Do
  | Done
  | Read
  | Print
  | Var
  | TypeInt
  | TypeFloat
  | TypeVoid
  | Function
  | Return
  | Eof
deriving DecidableEq, Repr

/-- Token, from src/token.rs. -/
structure Token where
  typ : TokenType
  lexeme : Option String
  pos : Pos
deriving DecidableEq, Repr

/-- Static types, from src/types.rs (source name: Type). -/
inductive Ty where
  | Int
  | Float
  | Void
deriving DecidableEq, Repr

/-- Binary operators, from src/ast.rs. -/
inductive Binop where
  | Add
  | Sub
  | Mul
  | Div
deriving DecidableEq, Repr

/-- Model of the ast.rs Float newtype around f64: the literal is carried
by its lexeme.  Equality of two FloatLit values is lexeme equality. -/
structure FloatLit where
  repr : String
deriving DecidableEq, Repr

/-- Expressions, from src/ast.rs (each wrapper struct ExprId, ExprInt,
ExprFloat, ExprNegate, ExprBinop is inlined into its constructor; the
field order is kept).  There is no node-identity field: src/ast.rs lines
112-119 key an expression by its structure (including positions). -/
inductive Expr where
  | Id : Pos → String → Expr
  | Int : Pos → Int → Expr
  | Float : Pos → FloatLit → Expr
  | Negate : Pos → Expr → Expr
  | Binop : Pos → Binop → Expr → Expr → Expr
deriving DecidableEq, Repr

/-- Statements.  Read/Print/Assign/If/While are the variants of
src/ast.rs; Return is the extra variant that src/parser.rs constructs
(Stmt::Return(StmtReturn { pos, expr })) although src/ast.rs and
src/typecheck.rs have no such variant — the revisions disagree. -/
inductive Stmt where
  | Read : Pos → String → Stmt
  | Print : Pos → Expr → Stmt
  | Assign : Pos → String → Expr → Stmt
  | If : Pos → Expr → List Stmt → List Stmt → Stmt
  | While : Pos → Expr → List Stmt → Stmt
  | Return : Pos → Option Expr → Stmt

/-- Variable declaration record, from src/ast.rs (struct Decl: pos, id,
ty).  src/parser.rs builds the same fields under the name VarDecl. -/
structure Decl where
  pos : Pos
  id : String
  ty : Ty
deriving DecidableEq, Repr

/-- Function declaration, as constructed by src/parser.rs
(parse_func_decl). -/
structure FunDecl where
  pos : Pos
  id : String
  params : List (String × Ty)
  ty : Ty
  decls : List Decl
  stmts : List Stmt

/-- Declaration sum as used by src/parser.rs (Decl::Var / Decl::Fun). -/
inductive DeclP where
  | Var : Decl → DeclP
  | Fun : FunDecl → DeclP

/-- Program, from src/ast.rs lines 121-125: declarations and top-level
statements. -/
structure Program where
  decls : List Decl
  stmts : List Stmt

/-- The record that src/parser.rs parse_program actually builds: the
struct literal at parser.rs lines 81-83 is Program { decls: decls } and
omits the stmts field that src/ast.rs requires (the source does not
compile as Rust).  The embedding gives the literal its own record. -/
structure ProgramP where
  decls : List DeclP

/-- Errors, from src/error.rs. -/
inductive Error where
  | GenericError
  | IllegalCharacter : Pos → Char → Error
  | UnterminatedString : Pos → Error
  | UnexpectedToken : Token → List TokenType → Error
  | InvalidIntLiteral : Pos → String → Error
  | InvalidFloatLiteral : Pos → String → Error
  | UnexpectedType : Pos → Ty → Ty → Error
  | IllTypedBinop : Pos → Binop → Ty → Ty → Error
  | DuplicateVariable : Pos → String → Error
  | UndeclaredVariable : Pos → String → Error
deriving DecidableEq, Repr

end Minilang

namespace Minilang.Scanner

/-- Scanner state, from src/scanner.rs (struct Scanner).  The source
holds the program as a String; the embedding holds its characters. -/
structure SState where
  data : List Char
  index : Nat
  start_pos : Pos
  curr_pos : Pos
deriving DecidableEq, Repr

/-- Scanner::new, from src/scanner.rs. -/
def new_scanner (data : List Char) : SState :=
  { data := data, index := 0, start_pos := ⟨1, 1⟩, curr_pos := ⟨1, 1⟩ }

/-- Scanner::peek: the character at the current index, or NUL at end of
input (src/scanner.rs lines 25-30). -/
def peek (s : SState) : Char :=
  (s.data.get? s.index).getD '\x00'

/-- Scanner::is_eof (src/scanner.rs lines 50-52). -/
def is_eof (s : SState) : Bool :=
  s.data.length ≤ s.index

/-- Scanner::advance (src/scanner.rs lines 34-46): return the current
character, increment the index unless at end of input, and update the
position cursor. -/
def advance (s : SState) : Char × SState :=
  let c := peek s
  let s1 := if is_eof s then s else { s with index := s.index + 1 }
  let s2 :=
    if c = '\n' then
      { s1 with curr_pos := ⟨s1.curr_pos.line + 1, 1⟩ }
    else
      { s1 with curr_pos := ⟨s1.curr_pos.line, s1.curr_pos.col + 1⟩ }
  (c, s2)

/-- ASCII fragment of Rust char::is_whitespace.  All inputs considered
by the claims are ASCII. -/
def rust_is_whitespace (c : Char) : Bool :=
  c = ' ' || c = '\t' || c = '\n' || c = '\r' || c = '\x0b' || c = '\x0c'

/-- Rust char::is_digit(10). -/
def is_digit10 (c : Char) : Bool :=
  '0' ≤ c && c ≤ '9'

/-- is_id_start, from src/scanner.rs lines 178-182. -/
def is_id_start (c : Char) : Bool :=
  ('a' ≤ c && c ≤ 'z') || c = '_' || ('A' ≤ c && c ≤ 'Z')

/-- is_id_char, from src/scanner.rs lines 185-190. -/
def is_id_char (c : Char) : Bool :=
  ('a' ≤ c && c ≤ 'z') || c = '_' || is_digit10 c || ('A' ≤ c && c ≤ 'Z')

/-- Scanner::skip_whitespace (src/scanner.rs lines 141-145), fueled. -/
def skip_whitespace : Nat → SState → Option SState
  | 0, _ => none
  | n + 1, s =>
    if rust_is_whitespace (peek s) then skip_whitespace n (advance s).2
    else some s

/-- Scanner::skip_comment (src/scanner.rs lines 147-151), fueled: loop
while the current character is not a newline.  Note the source has no
end-of-input test in this loop. -/
def skip_comment : Nat → SState → Option SState
  | 0, _ => none
  | n + 1, s =>
    if peek s ≠ '\n' then skip_comment n (advance s).2
    else some s

/-- Scanner::skip_comments_and_whitespace (src/scanner.rs lines
130-139), fueled. -/
def skip_comments_and_whitespace : Nat → SState → Option SState
  | 0, _ => none
  | n + 1, s => do
    let s1 ← skip_whitespace (n + 1) s
    if peek s1 = '#' then do
      let s2 ← skip_comment (n + 1) s1
      skip_comments_and_whitespace n s2
    else
      some s1

/-- Scanner::empty_tok (src/scanner.rs lines 153-160). -/
def empty_tok (s : SState) (t : TokenType) : Token :=
  { typ := t, lexeme := none, pos := s.start_pos }

/-- Scanner::lexeme_tok (src/scanner.rs lines 162-169). -/
def lexeme_tok (s : SState) (t : TokenType) (lexeme : String) : Token :=
  { typ := t, lexeme := some lexeme, pos := s.start_pos }

/-- Scanner::single_char_tok (src/scanner.rs lines 171-175): build the
token from start_pos, then advance once. -/
def single_char_tok (s : SState) (t : TokenType) : Token × SState :=
  (empty_tok s t, (advance s).2)

/-- Digit-accumulation loop shared by both halves of scan_int_or_float
(the two while-loops at src/scanner.rs lines 89-91 and 99-101). -/
def scan_digits : Nat → SState → String → Option (String × SState)
  | 0, _, _ => none
  | n + 1, s, acc =>
    if is_digit10 (peek s) then
      let (c, s1) := advance s
      scan_digits n s1 (acc.push c)
    else
      some (acc, s)

/-- Scanner::scan_int_or_float (src/scanner.rs lines 87-104).  The
source wraps the token in Ok unconditionally; the Option here is only
the fuel artifact. -/
def scan_int_or_float (n : Nat) (s : SState) : Option (Token × SState) := do
  let (val, s1) ← scan_digits n s ""
  if peek s1 ≠ '.' then
    some (lexeme_tok s1 TokenType.Int val, s1)
  else do
    let (c, s2) := advance s1
    let (val2, s3) ← scan_digits n s2 (val.push c)
    some (lexeme_tok s3 TokenType.Float val2, s3)

/-- Identifier-accumulation loop of scan_id_or_keyword (src/scanner.rs
lines 109-111). -/
def scan_id_chars : Nat → SState → String → Option (String × SState)
  | 0, _, _ => none
  | n + 1, s, acc =>
    if is_id_char (peek s) then
      let (c, s1) := advance s
      scan_id_chars n s1 (acc.push c)
    else
      some (acc, s)

/-- Scanner::scan_id_or_keyword (src/scanner.rs lines 107-127). -/
def scan_id_or_keyword (n : Nat) (s : SState) : Option (Token × SState) := do
  let (lexeme, s1) ← scan_id_chars n s ""
  if lexeme = "if" then some (empty_tok s1 .If, s1)
  else if lexeme = "then" then some (empty_tok s1 .Then, s1)
  else if lexeme = "else" then some (empty_tok s1 .Else, s1)
  else if lexeme = "end" then some (empty_tok s1 .End, s1)
  else if lexeme = "while" then some (empty_tok s1 .While, s1)
  else if lexeme = "do" then some (empty_tok s1 .Do, s1)
  else if lexeme = "done" then some (empty_tok s1 .Done, s1)
  else if lexeme = "read" then some (empty_tok s1 .Read, s1)
  else if lexeme = "print" then some (empty_tok s1 .Print, s1)
  else if lexeme = "var" then some (empty_tok s1 .Var, s1)
  else if lexeme = "int" then some (empty_tok s1 .TypeInt, s1)
  else if lexeme = "float" then some (empty_tok s1 .TypeFloat, s1)
  else some (lexeme_tok s1 .Id lexeme, s1)

/-- Scanner::next_token (src/scanner.rs lines 56-84), fueled.  A none
result means the fuel ran out (in particular it arises for every fuel
value exactly when the source loops forever). -/
def next_token (n : Nat) (s : SState) : Option (Except Error (Token × SState)) := do
  let s1 ← skip_comments_and_whitespace n s
  let s2 := { s1 with start_pos := s1.curr_pos }
  if is_eof s2 then
    some (Except.ok (empty_tok s2 .Eof, s2))
  else
    let c := peek s2
    if c = '+' then some (Except.ok (single_char_tok s2 .Plus))
    else if c = '-' then some (Except.ok (single_char_tok s2 .Minus))
    else if c = '*' then some (Except.ok (single_char_tok s2 .Star))
    else if c = '/' then some (Except.ok (single_char_tok s2 .Slash))
    else if c = '=' then some (Except.ok (single_char_tok s2 .Equal))
    else if c = '(' then some (Except.ok (single_char_tok s2 .LParen))
    else if c = ')' then some (Except.ok (single_char_tok s2 .RParen))
    else if c = ':' then some (Except.ok (single_char_tok s2 .Colon))
    else if c = ';' then some (Except.ok (single_char_tok s2 .Semicolon))
    else if is_digit10 c then (scan_int_or_float n s2).map Except.ok
    else if is_id_start c then (scan_id_or_keyword n s2).map Except.ok
    else some (Except.error (Error.IllegalCharacter s2.curr_pos c))

end Minilang.Scanner

namespace Minilang.Parser

/-- Parser outcome tags: a real error from src/error.rs, an
out-of-bounds token access (the unchecked indexing of self.tokens at
self.index in src/parser.rs would panic there), or fuel exhaustion
(embedding artifact only). -/
inductive PErr where
  | err : Error → PErr
  | oob : PErr
  | outOfFuel : PErr
deriving DecidableEq, Repr

/-- The unchecked token access shared by peek, curr_token and token_pos
(src/parser.rs lines 21-32).  The token vector of struct Parser is
immutable after construction and is passed as a fixed argument to every
parsing function; the index field is the evolving state, returned next
to each parsed value. -/
def read_tok (ts : List Token) (i : Nat) : Except PErr Token :=
  match ts.get? i with
  | some t => Except.ok t
  | none => Except.error PErr.oob

/-- Parser::peek (src/parser.rs lines 21-24). -/
def peek (ts : List Token) (i : Nat) (t : TokenType) : Except PErr Bool := do
  let tok ← read_tok ts i
  pure (decide (tok.typ = t))

/-- Parser::token_pos (src/parser.rs lines 30-32). -/
def token_pos (ts : List Token) (i : Nat) : Except PErr Pos := do
  let tok ← read_tok ts i
  pure tok.pos

/-- Parser::eat (src/parser.rs lines 34-42). -/
def eat (ts : List Token) (t : TokenType) (i : Nat) : Except PErr (Unit × Nat) := do
  let b ← peek ts i t
  if b then
    Except.ok ((), i + 1)
  else do
    let tok ← read_tok ts i
    Except.error (PErr.err (Error.UnexpectedToken tok [t]))

/-- Parser::eat_lexeme (src/parser.rs lines 44-57). -/
def eat_lexeme (ts : List Token) (t : TokenType) (i : Nat) :
    Except PErr (String × Nat) := do
  let tok ← read_tok ts i
  if tok.typ = t then
    match tok.lexeme with
    | some l => Except.ok (l, i + 1)
    | none => Except.error (PErr.err (Error.UnexpectedToken tok [t]))
  else
    Except.error (PErr.err (Error.UnexpectedToken tok [t]))

/-- Parser::eat_type (src/parser.rs lines 59-72). -/
def eat_type (ts : List Token) (i : Nat) : Except PErr (Ty × Nat) := do
  let tok ← read_tok ts i
  if tok.typ = TokenType.TypeInt then Except.ok (Ty.Int, i + 1)
  else if tok.typ = TokenType.TypeFloat then Except.ok (Ty.Float, i + 1)
  else if tok.typ = TokenType.TypeVoid then Except.ok (Ty.Void, i + 1)
  else Except.error (PErr.err (Error.UnexpectedToken tok
    [TokenType.TypeInt, TokenType.TypeFloat]))

/-- Value of a nonempty digit string. -/
def digits_val : List Char → Option Nat
  | [] => none
  | l => l.foldlM (fun acc c =>
      if Scanner.is_digit10 c then some (acc * 10 + (c.toNat - '0'.toNat))
      else none) 0

/-- Rust str::parse::<i64>: optional sign, digits, i64 range check. -/
def parse_i64 (s : String) : Option Int :=
  match s.toList with
  | '+' :: rest => do
    let n ← digits_val rest
    if n ≤ 9223372036854775807 then some (Int.ofNat n) else none
  | '-' :: rest => do
    let n ← digits_val rest
    if n ≤ 9223372036854775808 then some (-(Int.ofNat n)) else none
  | l => do
    let n ← digits_val l
    if n ≤ 9223372036854775807 then some (Int.ofNat n) else none

/-- Shape test for Rust str::parse::<f64> success: optional sign, then
inf / infinity / nan (any case), or digits with an optional decimal
point and an optional exponent.  The numeric value itself is kept as
the lexeme (see FloatLit); the claims below depend only on success or
failure, and only at scanner-shaped lexemes (digits [. digits]). -/
def is_f64_lexeme (s : String) : Bool :=
  let body :=
    match s.toList with
    | '+' :: rest => rest
    | '-' :: rest => rest
    | l => l
  let lower := body.map Char.toLower
  if lower = "inf".toList || lower = "infinity".toList || lower = "nan".toList then
    true
  else
    let (mant, ex) :=
      match lower.splitOn 'e' with
      | [m] => (m, none)
      | [m, e] => (m, some e)
      | _ => ([' '], none)
    let mantOk :=
      match mant.splitOn '.' with
      | [a] => decide (a ≠ []) && a.all Scanner.is_digit10
      | [a, b] => decide (a ++ b ≠ []) && (a ++ b).all Scanner.is_digit10
      | _ => false
    let exOk :=
      match ex with
      | none => true
      | some ('+' :: d) => decide (d ≠ []) && d.all Scanner.is_digit10
      | some ('-' :: d) => decide (d ≠ []) && d.all Scanner.is_digit10
      | some d => decide (d ≠ []) && d.all Scanner.is_digit10
    mantOk && exOk

def parse_f64 (s : String) : Option FloatLit :=
  if is_f64_lexeme s then some ⟨s⟩ else none

/-- Parser::parse_int (src/parser.rs lines 420-427). -/
def parse_int (ts : List Token) (i : Nat) : Except PErr (Expr × Nat) := do
  let pos ← token_pos ts i
  let (lexeme, i1) ← eat_lexeme ts TokenType.Int i
  match parse_i64 lexeme with
  | some n => Except.ok (Expr.Int pos n, i1)
  | none => Except.error (PErr.err (Error.InvalidIntLiteral pos lexeme))

/-- Parser::parse_float (src/parser.rs lines 429-436). -/
def parse_float (ts : List Token) (i : Nat) : Except PErr (Expr × Nat) := do
  let pos ← token_pos ts i
  let (lexeme, i1) ← eat_lexeme ts TokenType.Float i
  match parse_f64 lexeme with
  | some v => Except.ok (Expr.Float pos v, i1)
  | none => Except.error (PErr.err (Error.InvalidFloatLiteral pos lexeme))

/-- Parser::parse_id (src/parser.rs lines 438-442). -/
def parse_id (ts : List Token) (i : Nat) : Except PErr (Expr × Nat) := do
  let pos ← token_pos ts i
  let (lexeme, i1) ← eat_lexeme ts TokenType.Id i
  Except.ok (Expr.Id pos lexeme, i1)

/-- Parser::is_stmt_start (src/parser.rs lines 444-451). -/
def is_stmt_start (ts : List Token) (i : Nat) : Except PErr Bool := do
  let tok ← read_tok ts i
  pure (decide (tok.typ = TokenType.Id ∨ tok.typ = TokenType.If ∨
    tok.typ = TokenType.While ∨ tok.typ = TokenType.Read ∨
    tok.typ = TokenType.Print ∨ tok.typ = TokenType.Return))

/-- Parser::next_is_add (src/parser.rs lines 453-455). -/
def next_is_add (ts : List Token) (i : Nat) : Except PErr Bool := do
  let tok ← read_tok ts i
  pure (decide (tok.typ = TokenType.Plus ∨ tok.typ = TokenType.Minus))

/-- Parser::next_is_mul (src/parser.rs lines 457-459). -/
def next_is_mul (ts : List Token) (i : Nat) : Except PErr Bool := do
  let tok ← read_tok ts i
  pure (decide (tok.typ = TokenType.Star ∨ tok.typ = TokenType.Slash))

mutual

/-- Parser::parse_expr (src/parser.rs lines 320-349): a term followed by
the additive while-loop (parse_expr_loop). -/
def parse_expr (fuel : Nat) (ts : List Token) (i : Nat) : Except PErr (Expr × Nat) :=
  match fuel with
  | 0 => Except.error PErr.outOfFuel
  | f + 1 => do
    let pos ← token_pos ts i
    let (e, i1) ← parse_term f ts i
    parse_expr_loop f ts pos e i1
termination_by structural fuel

/-- The while-loop of parse_expr; pos is the position captured at the
start of parse_expr and reused for every Binop node it builds. -/
def parse_expr_loop (fuel : Nat) (ts : List Token) (pos : Pos) (e : Expr) (i : Nat) :
    Except PErr (Expr × Nat) :=
  match fuel with
  | 0 => Except.error PErr.outOfFuel
  | f + 1 => do
    let b ← next_is_add ts i
    if b then do
      let b1 ← peek ts i TokenType.Plus
      if b1 then do
        let ((), i1) ← eat ts TokenType.Plus i
        let (t, i2) ← parse_term f ts i1
        parse_expr_loop f ts pos (Expr.Binop pos Binop.Add e t) i2
      else do
        let b2 ← peek ts i TokenType.Minus
        if b2 then do
          let ((), i1) ← eat ts TokenType.Minus i
          let (t, i2) ← parse_term f ts i1
          parse_expr_loop f ts pos (Expr.Binop pos Binop.Sub e t) i2
        else do
          let tok ← read_tok ts i
          Except.error (PErr.err (Error.UnexpectedToken tok
            [TokenType.Plus, TokenType.Minus]))
    else
      Except.ok (e, i)
termination_by structural fuel

/-- Parser::parse_term (src/parser.rs lines 356-385): a factor followed
by the multiplicative while-loop.  The source line 384 returns the
undefined name term (a compile error in Rust); the only reading that
compiles, returning the accumulator fact, is embedded. -/
def parse_term (fuel : Nat) (ts : List Token) (i : Nat) : Except PErr (Expr × Nat) :=
  match fuel with
  | 0 => Except.error PErr.outOfFuel
  | f + 1 => do
    let pos ← token_pos ts i
    let (e, i1) ← parse_factor f ts i
    parse_term_loop f ts pos e i1
termination_by structural fuel

/-- The while-loop of parse_term. -/
def parse_term_loop (fuel : Nat) (ts : List Token) (pos : Pos) (e : Expr) (i : Nat) :
    Except PErr (Expr × Nat) :=
  match fuel with
  | 0 => Except.error PErr.outOfFuel
  | f + 1 => do
    let b ← next_is_mul ts i
    if b then do
      let b1 ← peek ts i TokenType.Star
      if b1 then do
        let ((), i1) ← eat ts TokenType.Star i
        let (t, i2) ← parse_factor f ts i1
        parse_term_loop f ts pos (Expr.Binop pos Binop.Mul e t) i2
      else do
        let b2 ← peek ts i TokenType.Slash
        if b2 then do
          let ((), i1) ← eat ts TokenType.Slash i
          let (t, i2) ← parse_factor f ts i1
          parse_term_loop f ts pos (Expr.Binop pos Binop.Div e t) i2
        else do
          let tok ← read_tok ts i
          Except.error (PErr.err (Error.UnexpectedToken tok
            [TokenType.Star, TokenType.Slash]))
    else
      Except.ok (e, i)
termination_by structural fuel

/-- Parser::parse_factor (src/parser.rs lines 395-418).  The unary
minus branch parses a full expr, not just a factor. -/
def parse_factor (fuel : Nat) (ts : List Token) (i : Nat) : Except PErr (Expr × Nat) :=
  match fuel with
  | 0 => Except.error PErr.outOfFuel
  | f + 1 => do
    let pos ← token_pos ts i
    let b1 ← peek ts i TokenType.Int
    if b1 then parse_int ts i
    else do
      let b2 ← peek ts i TokenType.Float
      if b2 then parse_float ts i
      else do
        let b3 ← peek ts i TokenType.Id
        if b3 then parse_id ts i
        else do
          let b4 ← peek ts i TokenType.LParen
          if b4 then do
            let ((), i1) ← eat ts TokenType.LParen i
            let (e, i2) ← parse_expr f ts i1
            let ((), i3) ← eat ts TokenType.RParen i2
            Except.ok (e, i3)
          else do
            let b5 ← peek ts i TokenType.Minus
            if b5 then do
              let ((), i1) ← eat ts TokenType.Minus i
              let (e, i2) ← parse_expr f ts i1
              Except.ok (Expr.Negate pos e, i2)
            else do
              let tok ← read_tok ts i
              Except.error (PErr.err (Error.UnexpectedToken tok
                [TokenType.Int, TokenType.Float, TokenType.Id,
                 TokenType.Minus, TokenType.LParen]))
termination_by structural fuel

end

/-- Parser::parse_read (src/parser.rs lines 226-232). -/
def parse_read (ts : List Token) (i : Nat) : Except PErr (Stmt × Nat) := do
  let pos ← token_pos ts i
  let ((), i1) ← eat ts TokenType.Read i
  let (id, i2) ← eat_lexeme ts TokenType.Id i1
  let ((), i3) ← eat ts TokenType.Semicolon i2
  Except.ok (Stmt.Read pos id, i3)

/-- Parser::parse_print (src/parser.rs lines 237-243). -/
def parse_print (f : Nat) (ts : List Token) (i : Nat) : Except PErr (Stmt × Nat) := do
  let pos ← token_pos ts i
  let ((), i1) ← eat ts TokenType.Print i
  let (e, i2) ← parse_expr f ts i1
  let ((), i3) ← eat ts TokenType.Semicolon i2
  Except.ok (Stmt.Print pos e, i3)

/-- Parser::parse_assign (src/parser.rs lines 248-255). -/
def parse_assign (f : Nat) (ts : List Token) (i : Nat) : Except PErr (Stmt × Nat) := do
  let pos ← token_pos ts i
  let (id, i1) ← eat_lexeme ts TokenType.Id i
  let ((), i2) ← eat ts TokenType.Equal i1
  let (e, i3) ← parse_expr f ts i2
  let ((), i4) ← eat ts TokenType.Semicolon i3
  Except.ok (Stmt.Assign pos id e, i4)

/-- Parser::parse_return (src/parser.rs lines 297-313). -/
def parse_return (f : Nat) (ts : List Token) (i : Nat) : Except PErr (Stmt × Nat) := do
  let pos ← token_pos ts i
  let ((), i1) ← eat ts TokenType.Return i
  let b ← peek ts i1 TokenType.Semicolon
  if b then do
    let ((), i2) ← eat ts TokenType.Semicolon i1
    Except.ok (Stmt.Return pos none, i2)
  else do
    let (e, i2) ← parse_expr f ts i1
    let ((), i3) ← eat ts TokenType.Semicolon i2
    Except.ok (Stmt.Return pos (some e), i3)

mutual

/-- Parser::parse_stmts (src/parser.rs lines 185-192): statements while
is_stmt_start holds. -/
def parse_stmts (fuel : Nat) (ts : List Token) (i : Nat) :
    Except PErr (List Stmt × Nat) :=
  match fuel with
  | 0 => Except.error PErr.outOfFuel
  | f + 1 => do
    let b ← is_stmt_start ts i
    if b then do
      let (s, i1) ← parse_stmt f ts i
      let (rest, i2) ← parse_stmts f ts i1
      Except.ok (s :: rest, i2)
    else
      Except.ok ([], i)
termination_by structural fuel

/-- Parser::parse_stmt (src/parser.rs lines 202-221). -/
def parse_stmt (fuel : Nat) (ts : List Token) (i : Nat) : Except PErr (Stmt × Nat) :=
  match fuel with
  | 0 => Except.error PErr.outOfFuel
  | f + 1 => do
    let b1 ← peek ts i TokenType.Read
    if b1 then parse_read ts i
    else do
      let b2 ← peek ts i TokenType.Print
      if b2 then parse_print f ts i
      else do
        let b3 ← peek ts i TokenType.Id
        if b3 then parse_assign f ts i
        else do
          let b4 ← peek ts i TokenType.If
          if b4 then parse_if f ts i
          else do
            let b5 ← peek ts i TokenType.While
            if b5 then parse_while f ts i
            else do
              let b6 ← peek ts i TokenType.Return
              if b6 then parse_return f ts i
              else do
                let tok ← read_tok ts i
                Except.error (PErr.err (Error.UnexpectedToken tok
                  [TokenType.Read, TokenType.Print, TokenType.Id,
                   TokenType.If, TokenType.While]))
termination_by structural fuel

/-- Parser::parse_if (src/parser.rs lines 260-275).  Note: the source
unconditionally eats an Else token between the two statement lists,
although the grammar comment above it marks the else clause optional. -/
def parse_if (fuel : Nat) (ts : List Token) (i : Nat) : Except PErr (Stmt × Nat) :=
  match fuel with
  | 0 => Except.error PErr.outOfFuel
  | f + 1 => do
    let pos ← token_pos ts i
    let ((), i1) ← eat ts TokenType.If i
    let (e, i2) ← parse_expr f ts i1
    let ((), i3) ← eat ts TokenType.Then i2
    let (then_stmts, i4) ← parse_stmts f ts i3
    let ((), i5) ← eat ts TokenType.Else i4
    let (else_stmts, i6) ← parse_stmts f ts i5
    let ((), i7) ← eat ts TokenType.End i6
    Except.ok (Stmt.If pos e then_stmts else_stmts, i7)
termination_by structural fuel

/-- Parser::parse_while (src/parser.rs lines 280-292). -/
def parse_while (fuel : Nat) (ts : List Token) (i : Nat) : Except PErr (Stmt × Nat) :=
  match fuel with
  | 0 => Except.error PErr.outOfFuel
  | f + 1 => do
    let pos ← token_pos ts i
    let ((), i1) ← eat ts TokenType.While i
    let (e, i2) ← parse_expr f ts i1
    let ((), i3) ← eat ts TokenType.Do i2
    let (stmts, i4) ← parse_stmts f ts i3
    let ((), i5) ← eat ts TokenType.Done i4
    Except.ok (Stmt.While pos e stmts, i5)
termination_by structural fuel

end

/-- Parser::parse_var_decl (src/parser.rs lines 125-133). -/
def parse_var_decl (ts : List Token) (i : Nat) : Except PErr (Decl × Nat) := do
  let pos ← token_pos ts i
  let ((), i1) ← eat ts TokenType.Var i
  let (id, i2) ← eat_lexeme ts TokenType.Id i1
  let ((), i3) ← eat ts TokenType.Colon i2
  let (ty, i4) ← eat_type ts i3
  let ((), i5) ← eat ts TokenType.Semicolon i4
  Except.ok (⟨pos, id, ty⟩, i5)

/-- Parser::parse_var_decls (src/parser.rs lines 113-120). -/
def parse_var_decls : Nat → List Token → Nat → Except PErr (List Decl × Nat)
  | 0, _, _ => Except.error PErr.outOfFuel
  | f + 1, ts, i => do
    let b ← peek ts i TokenType.Var
    if b then do
      let (d, i1) ← parse_var_decl ts i
      let (rest, i2) ← parse_var_decls f ts i1
      Except.ok (d :: rest, i2)
    else
      Except.ok ([], i)

/-- Parser::parse_params (src/parser.rs lines 167-182): the while-loop
with its break when no comma follows a parameter. -/
def parse_params : Nat → List Token → Nat → Except PErr (List (String × Ty) × Nat)
  | 0, _, _ => Except.error PErr.outOfFuel
  | f + 1, ts, i => do
    let b ← peek ts i TokenType.Id
    if b then do
      let (id, i1) ← eat_lexeme ts TokenType.Id i
      let ((), i2) ← eat ts TokenType.Colon i1
      let (ty, i3) ← eat_type ts i2
      let b2 ← peek ts i3 TokenType.Comma
      if b2 then do
        let ((), i4) ← eat ts TokenType.Comma i3
        let (rest, i5) ← parse_params f ts i4
        Except.ok ((id, ty) :: rest, i5)
      else
        Except.ok ([(id, ty)], i3)
    else
      Except.ok ([], i)

/-- Parser::parse_func_decl (src/parser.rs lines 138-159). -/
def parse_func_decl (f : Nat) (ts : List Token) (i : Nat) :
    Except PErr (FunDecl × Nat) := do
  let pos ← token_pos ts i
  let ((), i1) ← eat ts TokenType.Function i
  let (id, i2) ← eat_lexeme ts TokenType.Id i1
  let ((), i3) ← eat ts TokenType.LParen i2
  let (params, i4) ← parse_params f ts i3
  let ((), i5) ← eat ts TokenType.RParen i4
  let ((), i6) ← eat ts TokenType.Colon i5
  let (ty, i7) ← eat_type ts i6
  let (decls, i8) ← parse_var_decls f ts i7
  let (stmts, i9) ← parse_stmts f ts i8
  let ((), i10) ← eat ts TokenType.End i9
  Except.ok (⟨pos, id, params, ty, decls, stmts⟩, i10)

/-- Parser::parse_decl (src/parser.rs lines 99-111). -/
def parse_decl (f : Nat) (ts : List Token) (i : Nat) : Except PErr (DeclP × Nat) := do
  let b1 ← peek ts i TokenType.Var
  if b1 then do
    let (vd, i1) ← parse_var_decl ts i
    Except.ok (DeclP.Var vd, i1)
  else do
    let b2 ← peek ts i TokenType.Function
    if b2 then do
      let (fd, i1) ← parse_func_decl f ts i
      Except.ok (DeclP.Fun fd, i1)
    else do
      let tok ← read_tok ts i
      Except.error (PErr.err (Error.UnexpectedToken tok
        [TokenType.Var, TokenType.Function]))

/-- Parser::parse_decls (src/parser.rs lines 86-93). -/
def parse_decls : Nat → List Token → Nat → Except PErr (List DeclP × Nat)
  | 0, _, _ => Except.error PErr.outOfFuel
  | f + 1, ts, i => do
    let tok ← read_tok ts i
    if tok.typ = TokenType.Var ∨ tok.typ = TokenType.Function then do
      let (d, i1) ← parse_decl f ts i
      let (rest, i2) ← parse_decls f ts i1
      Except.ok (d :: rest, i2)
    else
      Except.ok ([], i)

/-- Parser::parse_program (src/parser.rs lines 77-84): declarations,
then the Eof token.  No statements are parsed; see ProgramP. -/
def parse_program (f : Nat) (ts : List Token) (i : Nat) :
    Except PErr (ProgramP × Nat) := do
  let (decls, i1) ← parse_decls f ts i
  let ((), i2) ← eat ts TokenType.Eof i1
  Except.ok (⟨decls⟩, i2)

end Minilang.Parser

namespace Minilang.Typecheck

/-- First-match lookup in an association list; observational model of
HashMap::get / contains_key. -/
def lookupA {α β : Type} [DecidableEq α] : List (α × β) → α → Option β
  | [], _ => none
  | (k, v) :: rest, k2 => if k = k2 then some v else lookupA rest k2

/-- Insert-replace in an association list; observational model of
HashMap::insert (replaces the value of an existing key, otherwise adds
the new entry). -/
def insertA {α β : Type} [DecidableEq α] : List (α × β) → α → β → List (α × β)
  | [], k, v => [(k, v)]
  | (k1, v1) :: rest, k, v =>
    if k1 = k then (k1, v) :: rest else (k1, v1) :: insertA rest k v

/-- Symtable: HashMap<String, Type> (src/typecheck.rs line 7). -/
abbrev Symtable := List (String × Ty)

/-- Exprtable: HashMap<Expr, Type> (src/typecheck.rs line 8): keyed by
the expression value itself. -/
abbrev Exprtable := List (Expr × Ty)

/-- The two tables of struct TypeChecker (src/typecheck.rs lines
10-13). -/
structure TcState where
  symtable : Symtable
  expr_table : Exprtable
deriving DecidableEq, Repr

/-- TypeChecker::new (src/typecheck.rs lines 16-21). -/
def new_tc : TcState := ⟨[], []⟩

/-- Outcome of a checking function that mutates the TypeChecker: an ok
value with the state after the call, an error with the state at the
moment of the early return (the Rust struct keeps the mutations made
before the failure), or stuck — the control point where the source, as
given, has no code: a match without an arm for the scrutinee (Rust
rejects the non-exhaustive matches of src/typecheck.rs over the Type of
src/types.rs, which has Void, and over the Stmt built by src/parser.rs,
which has Return). -/
inductive TcRes (α : Type) where
  | ok : α → TcState → TcRes α
  | fail : Error → TcState → TcRes α
  | stuck : TcRes α
deriving DecidableEq, Repr

/-- TypeChecker::tc_expr (src/typecheck.rs lines 130-143): compute the
type of the expression, on success insert the expression value itself
as a key of expr_table (expr.clone() at line 139), and return the type.
The per-kind helpers tc_expr_id / tc_expr_negate / tc_expr_binop are
inlined at their call sites (their unreachable GenericError arms are
restated below as standalone definitions). -/
def tc_expr (st : TcState) : Expr → TcRes Ty
  | Expr.Id p id =>
    match lookupA st.symtable id with
    | some ty =>
      TcRes.ok ty { st with expr_table := insertA st.expr_table (Expr.Id p id) ty }
    | none => TcRes.fail (Error.UndeclaredVariable p id) st
  | Expr.Int p v =>
    TcRes.ok Ty.Int { st with expr_table := insertA st.expr_table (Expr.Int p v) Ty.Int }
  | Expr.Float p v =>
    TcRes.ok Ty.Float
      { st with expr_table := insertA st.expr_table (Expr.Float p v) Ty.Float }
  | Expr.Negate p sub =>
    match tc_expr st sub with
    | TcRes.ok ty st1 =>
      TcRes.ok ty
        { st1 with expr_table := insertA st1.expr_table (Expr.Negate p sub) ty }
    | TcRes.fail e st1 => TcRes.fail e st1
    | TcRes.stuck => TcRes.stuck
  | Expr.Binop p op e1 e2 =>
    match tc_expr st e1 with
    | TcRes.ok t1 st1 =>
      match tc_expr st1 e2 with
      | TcRes.ok t2 st2 =>
        match t1, t2 with
        | Ty.Int, Ty.Int =>
          TcRes.ok Ty.Int
            { st2 with expr_table :=
                insertA st2.expr_table (Expr.Binop p op e1 e2) Ty.Int }
        | Ty.Int, Ty.Float =>
          TcRes.ok Ty.Float
            { st2 with expr_table :=
                insertA st2.expr_table (Expr.Binop p op e1 e2) Ty.Float }
        | Ty.Float, Ty.Int =>
          TcRes.ok Ty.Float
            { st2 with expr_table :=
                insertA st2.expr_table (Expr.Binop p op e1 e2) Ty.Float }
        | Ty.Float, Ty.Float =>
          TcRes.ok Ty.Float
            { st2 with expr_table :=
                insertA st2.expr_table (Expr.Binop p op e1 e2) Ty.Float }
        | _, _ => TcRes.stuck
      | TcRes.fail e st2 => TcRes.fail e st2
      | TcRes.stuck => TcRes.stuck
    | TcRes.fail e st1 => TcRes.fail e st1
    | TcRes.stuck => TcRes.stuck

/-- TypeChecker::tc_expr_id (src/typecheck.rs lines 145-154), as the
standalone function of the source (no table insertion; tc_expr does
that after it returns). -/
def tc_expr_id (st : TcState) : Expr → TcRes Ty
  | Expr.Id p id =>
    match lookupA st.symtable id with
    | some ty => TcRes.ok ty st
    | none => TcRes.fail (Error.UndeclaredVariable p id) st
  | _ => TcRes.fail Error.GenericError st

/-- TypeChecker::tc_expr_binop (src/typecheck.rs lines 164-179), as the
standalone function of the source: type both operands, then match the
pair of types.  The match at lines 170-175 has arms only for the four
Int/Float pairs — no arm mentions Void (types.rs declares it) and none
constructs IllTypedBinop; the missing pairings are the stuck outcome. -/
def tc_expr_binop (st : TcState) : Expr → TcRes Ty
  | Expr.Binop _ _ e1 e2 =>
    match tc_expr st e1 with
    | TcRes.ok t1 st1 =>
      match tc_expr st1 e2 with
      | TcRes.ok t2 st2 =>
        match t1, t2 with
        | Ty.Int, Ty.Int => TcRes.ok Ty.Int st2
        | Ty.Int, Ty.Float => TcRes.ok Ty.Float st2
        | Ty.Float, Ty.Int => TcRes.ok Ty.Float st2
        | Ty.Float, Ty.Float => TcRes.ok Ty.Float st2
        | _, _ => TcRes.stuck
      | TcRes.fail e st2 => TcRes.fail e st2
      | TcRes.stuck => TcRes.stuck
    | TcRes.fail e st1 => TcRes.fail e st1
    | TcRes.stuck => TcRes.stuck
  | _ => TcRes.fail Error.GenericError st

/-- TypeChecker::tc_stmt_assign (src/typecheck.rs lines 61-79): type
the right-hand side first, then look the variable up, then match the
pair (declared type, expression type).  The match at lines 66-72 has
arms only for (Int,Int), (Int,Float), (Float,Int), (Float,Float); a
pairing that involves Void is the stuck outcome. -/
def tc_stmt_assign (st : TcState) : Stmt → TcRes Unit
  | Stmt.Assign pos id e =>
    match tc_expr st e with
    | TcRes.ok expr_ty st1 =>
      match lookupA st1.symtable id with
      | some id_ty =>
        match id_ty, expr_ty with
        | Ty.Int, Ty.Int => TcRes.ok () st1
        | Ty.Int, Ty.Float =>
          TcRes.fail (Error.UnexpectedType pos Ty.Int Ty.Float) st1
        | Ty.Float, Ty.Int => TcRes.ok () st1
        | Ty.Float, Ty.Float => TcRes.ok () st1
        | _, _ => TcRes.stuck
      | none => TcRes.fail (Error.UndeclaredVariable pos id) st1
    | TcRes.fail e st1 => TcRes.fail e st1
    | TcRes.stuck => TcRes.stuck
  | _ => TcRes.fail Error.GenericError st

/-- TypeChecker::tc_stmt_read (src/typecheck.rs lines 81-91). -/
def tc_stmt_read (st : TcState) : Stmt → TcRes Unit
  | Stmt.Read pos id =>
    if (lookupA st.symtable id).isSome then TcRes.ok () st
    else TcRes.fail (Error.UndeclaredVariable pos id) st
  | _ => TcRes.fail Error.GenericError st

/-- TypeChecker::tc_stmt_print (src/typecheck.rs lines 93-100). -/
def tc_stmt_print (st : TcState) : Stmt → TcRes Unit
  | Stmt.Print _ e =>
    match tc_expr st e with
    | TcRes.ok _ st1 => TcRes.ok () st1
    | TcRes.fail er st1 => TcRes.fail er st1
    | TcRes.stuck => TcRes.stuck
  | _ => TcRes.fail Error.GenericError st

mutual

/-- TypeChecker::tc_stmt (src/typecheck.rs lines 51-59): dispatch on
the statement kind.  The If and While cases (tc_stmt_if, tc_stmt_while,
lines 102-128) are inlined here because they recurse through tc_stmts;
the match of the source has no arm for the Return statements that
src/parser.rs builds, so they are the stuck outcome. -/
def tc_stmt (st : TcState) : Stmt → TcRes Unit
  | Stmt.Assign pos id e => tc_stmt_assign st (Stmt.Assign pos id e)
  | Stmt.Read pos id => tc_stmt_read st (Stmt.Read pos id)
  | Stmt.Print pos e => tc_stmt_print st (Stmt.Print pos e)
  | Stmt.If pos e then_stmts else_stmts =>
    match tc_expr st e with
    | TcRes.ok t st1 =>
      match t with
      | Ty.Int =>
        match tc_stmts st1 then_stmts with
        | TcRes.ok () st2 => tc_stmts st2 else_stmts
        | TcRes.fail er st2 => TcRes.fail er st2
        | TcRes.stuck => TcRes.stuck
      | _ => TcRes.fail (Error.UnexpectedType pos Ty.Int t) st1
    | TcRes.fail er st1 => TcRes.fail er st1
    | TcRes.stuck => TcRes.stuck
  | Stmt.While pos e stmts =>
    match tc_expr st e with
    | TcRes.ok t st1 =>
      match t with
      | Ty.Int => tc_stmts st1 stmts
      | _ => TcRes.fail (Error.UnexpectedType pos Ty.Int t) st1
    | TcRes.fail er st1 => TcRes.fail er st1
    | TcRes.stuck => TcRes.stuck
  | Stmt.Return _ _ => TcRes.stuck

/-- TypeChecker::tc_stmts (src/typecheck.rs lines 44-49): check each
statement in order, stopping at the first non-ok outcome. -/
def tc_stmts (st : TcState) : List Stmt → TcRes Unit
  | [] => TcRes.ok () st
  | s :: rest =>
    match tc_stmt st s with
    | TcRes.ok () st1 => tc_stmts st1 rest
    | TcRes.fail er st1 => TcRes.fail er st1
    | TcRes.stuck => TcRes.stuck

end

/-- TypeChecker::tc_decl (src/typecheck.rs lines 35-42). -/
def tc_decl (st : TcState) (d : Decl) : TcRes Unit :=
  if (lookupA st.symtable d.id).isSome then
    TcRes.fail (Error.DuplicateVariable d.pos d.id) st
  else
    TcRes.ok () { st with symtable := insertA st.symtable d.id d.ty }

/-- TypeChecker::tc_decls (src/typecheck.rs lines 28-33). -/
def tc_decls (st : TcState) : List Decl → TcRes Unit
  | [] => TcRes.ok () st
  | d :: rest =>
    match tc_decl st d with
    | TcRes.ok () st1 => tc_decls st1 rest
    | TcRes.fail er st1 => TcRes.fail er st1
    | TcRes.stuck => TcRes.stuck

/-- TypeChecker::tc_program (src/typecheck.rs lines 23-26):
declarations first, then the statements. -/
def tc_program (st : TcState) (p : Program) : TcRes Unit :=
  match tc_decls st p.decls with
  | TcRes.ok () st1 => tc_stmts st1 p.stmts
  | TcRes.fail er st1 => TcRes.fail er st1
  | TcRes.stuck => TcRes.stuck

/-- All expression nodes of an expression, the node itself included
(the set of nodes tc_expr visits). -/
def sub_exprs : Expr → List Expr
  | Expr.Id p id => [Expr.Id p id]
  | Expr.Int p v => [Expr.Int p v]
  | Expr.Float p v => [Expr.Float p v]
  | Expr.Negate p sub => Expr.Negate p sub :: sub_exprs sub
  | Expr.Binop p op e1 e2 =>
    Expr.Binop p op e1 e2 :: (sub_exprs e1 ++ sub_exprs e2)

mutual

/-- All expression nodes occurring in a statement. -/
def stmt_exprs : Stmt → List Expr
  | Stmt.Read _ _ => []
  | Stmt.Print _ e => sub_exprs e
  | Stmt.Assign _ _ e => sub_exprs e
  | Stmt.If _ e then_stmts else_stmts =>
    sub_exprs e ++ stmts_exprs then_stmts ++ stmts_exprs else_stmts
  | Stmt.While _ e stmts => sub_exprs e ++ stmts_exprs stmts
  | Stmt.Return _ none => []
  | Stmt.Return _ (some e) => sub_exprs e

/-- All expression nodes occurring in a statement list. -/
def stmts_exprs : List Stmt → List Expr
  | [] => []
  | s :: rest => stmt_exprs s ++ stmts_exprs rest

end

/-- All expression nodes occurring in a program. -/
def program_exprs (p : Program) : List Expr :=
  stmts_exprs p.stmts

end Minilang.Typecheck

namespace Minilang

/-- The dispatch table of Scanner::next_token for its single-character
arms (src/scanner.rs lines 71-79), as a function.  Characters outside
the nine arms are given Eof as an irrelevant default; the theorems
using this function restrict the argument to the nine characters. -/
def single_char_type (c : Char) : TokenType :=
  if c = '+' then TokenType.Plus
  else if c = '-' then TokenType.Minus
  else if c = '*' then TokenType.Star
  else if c = '/' then TokenType.Slash
  else if c = '=' then TokenType.Equal
  else if c = '(' then TokenType.LParen
  else if c = ')' then TokenType.RParen
  else if c = ':' then TokenType.Colon
  else if c = ';' then TokenType.Semicolon
  else TokenType.Eof

/-- Wellformed token sequence, as produced by get_tokens in
src/main.rs: nonempty, and a token kind is Eof exactly at the last
position. -/
def WfTokens (ts : List Token) : Prop :=
  1 ≤ ts.length ∧
  ∀ i, (h : i < ts.length) →
    ((ts.get ⟨i, h⟩).typ = TokenType.Eof ↔ i + 1 = ts.length)

/-- Safety predicate for a parsing result over the token sequence ts:
the result is not an out-of-bounds token access, and a success leaves
the index on a valid position (at most the position of the Eof
token). -/
def GoodRes {α : Type} (ts : List Token) (r : Except Parser.PErr (α × Nat)) : Prop :=
  r ≠ Except.error Parser.PErr.oob ∧
  ∀ a j, r = Except.ok (a, j) → j < ts.length

/-- Position helper for the concrete token sequences below: column n of
line 1. -/
def pc (n : Nat) : Pos := ⟨1, n⟩

/-- Token sequence of the source text print 1 ; (one top-level
statement), ending in Eof. -/
def toks_print1 : List Token :=
  [⟨TokenType.Print, none, pc 1⟩, ⟨TokenType.Int, some "1", pc 7⟩,
   ⟨TokenType.Semicolon, none, pc 8⟩, ⟨TokenType.Eof, none, pc 9⟩]

/-- Token sequence of the source text if 1 then print 1 ; end — an
if-statement with no else clause, ending in Eof. -/
def toks_if_no_else : List Token :=
  [⟨TokenType.If, none, pc 1⟩, ⟨TokenType.Int, some "1", pc 4⟩,
   ⟨TokenType.Then, none, pc 6⟩, ⟨TokenType.Print, none, pc 11⟩,
   ⟨TokenType.Int, some "1", pc 17⟩, ⟨TokenType.Semicolon, none, pc 18⟩,
   ⟨TokenType.End, none, pc 20⟩, ⟨TokenType.Eof, none, pc 23⟩]

/-- Token sequence of the expression - a + b followed by Eof. -/
def toks_neg_a_plus_b : List Token :=
  [⟨TokenType.Minus, none, pc 1⟩, ⟨TokenType.Id, some "a", pc 2⟩,
   ⟨TokenType.Plus, none, pc 3⟩, ⟨TokenType.Id, some "b", pc 4⟩,
   ⟨TokenType.Eof, none, pc 5⟩]

/-- A program with two Print statements whose expressions are the same
value (same literal, same position): Program { decls: [], stmts:
[Print(Int 1 at 1:2), Print(Int 1 at 1:2)] }.  src/typecheck.rs keys
expr_table by the expression value, so both visits insert the same
key. -/
def dup_expr_program : Program :=
  ⟨[], [Stmt.Print (pc 1) (Expr.Int (pc 2) 1),
        Stmt.Print (pc 3) (Expr.Int (pc 2) 1)]⟩

/-- A one-declaration, one-statement program that typechecks: var x :
int ; print x ;. -/
def ok_program : Program :=
  ⟨[⟨pc 1, "x", Ty.Int⟩], [Stmt.Print (pc 14) (Expr.Id (pc 20) "x")]⟩

/-- Monotonicity of the expression-table domain between two
type-checker states: every key present before is present after. -/
def TblMono (st st1 : Typecheck.TcState) : Prop :=
  ∀ k, (Typecheck.lookupA st.expr_table k).isSome →
    (Typecheck.lookupA st1.expr_table k).isSome

end Minilang

namespace Minilang

open Parser Scanner Typecheck

/-- Claim C1 (evaluation at the failing input): parse_program does not
implement program = decl* stmt* Eof.  On the token sequence of the
one-statement program print 1 ; it parses zero declarations and then
immediately demands Eof, failing with UnexpectedToken(found = the Print
token, expected = [Eof]); the claimed behaviour is to parse the
statement list and succeed.  (parse_program also builds a record with
no stmts field at all; see ProgramP.) -/
theorem claim_C1_parse_program_no_stmts :
    parse_program 20 toks_print1 0 =
      Except.error (PErr.err (Error.UnexpectedToken
        ⟨TokenType.Print, none, pc 1⟩ [TokenType.Eof])) := by
  rfl

/-- Claim C2 (evaluation at the failing input): parse_if requires an
else clause.  On the token sequence of if 1 then print 1 ; end it fails
with UnexpectedToken(found = the End token, expected = [Else]) instead
of succeeding with an empty else branch. -/
theorem claim_C2_parse_if_requires_else :
    parse_if 20 toks_if_no_else 0 =
      Except.error (PErr.err (Error.UnexpectedToken
        ⟨TokenType.End, none, pc 20⟩ [TokenType.Else])) := by
  rfl

/-- Claim C5 (evaluation at the failing input): with x declared of type
Void (void is accepted by the parser through eat_type), typing the
binary operation x + 1 reaches the operand-type pair (Void, Int), for
which the match of tc_expr_binop (src/typecheck.rs lines 170-175) has
no arm: the checker is stuck (in Rust the match is non-exhaustive and
rejected), and in particular no IllTypedBinop error is produced —
src/typecheck.rs never constructs IllTypedBinop at all. -/
theorem claim_C5_binop_void_not_illtyped :
    tc_expr_binop ⟨[("x", Ty.Void)], []⟩
      (Expr.Binop (pc 1) Binop.Add (Expr.Id (pc 1) "x") (Expr.Int (pc 5) 1)) =
      TcRes.stuck := by
  rfl

/-- Claim C9: unary minus binds a full expression.  Parsing - a + b
yields Negate(Binop(Add, Id a, Id b)) — the negation of the whole sum —
with the remaining index at the Eof token. -/
theorem claim_C9_negate_binds_full_expr :
    parse_expr 20 toks_neg_a_plus_b 0 =
      Except.ok (Expr.Negate (pc 1) (Expr.Binop (pc 2) Binop.Add
        (Expr.Id (pc 2) "a") (Expr.Id (pc 4) "b")), 4) := by
  rfl

/-- Claim C3 (counterexample): expression-type table entries are keyed
by the expression value, not by a per-node identity counter (ast.rs has
no such counter).  Typechecking a program with two Print statements
whose expressions are the identical value Int 1 at position 1:2
succeeds and leaves exactly ONE entry in expr_table — the second visit
overwrote the first — where the claim requires two distinct entries
under two distinct node identities. -/
theorem claim_C3_counterexample_single_entry :
    tc_program new_tc dup_expr_program =
      TcRes.ok () ⟨[], [(Expr.Int (pc 2) 1, Ty.Int)]⟩ ∧
    (insertA (insertA ([] : Exprtable) (Expr.Int (pc 2) 1) Ty.Int)
      (Expr.Int (pc 2) 1) Ty.Int).length = 1 := by
  exact ⟨rfl, rfl⟩

/-- Claim C6 (counterexample): the comma is not recognized by
Scanner::next_token — the dispatch at src/scanner.rs lines 70-83 has
arms for only nine single characters and no arm for a comma, so
scanning the input consisting of one comma yields
IllegalCharacter(1:1, comma), where the claim requires a Comma
token. -/
theorem claim_C6_counterexample_comma_illegal :
    next_token 10 (new_scanner [',']) =
      some (Except.error (Error.IllegalCharacter ⟨1, 1⟩ ',')) := by
  rfl

end Minilang

namespace Minilang

open Scanner Typecheck

/-- Helper: Scanner::skip_comment never terminates when no newline lies
at or after the current index — the loop condition peek ≠ newline stays
true (at end of input peek yields NUL, not newline) and advance stops
moving the index once the end of input is reached. -/
theorem skip_comment_no_newline_none :
    ∀ (n : Nat) (s : SState),
      (∀ j, s.index ≤ j → s.data.get? j ≠ some '\n') →
      skip_comment n s = none := by
  intro n
  induction n with
  | zero => intro s _; rfl
  | succ m ih =>
    intro s hs
    have hpeek : peek s ≠ '\n' := by
      unfold peek
      cases hg : s.data.get? s.index with
      | none => simp
      | some c =>
        have := hs s.index (Nat.le_refl _)
        simp only [hg, Option.getD_some]
        intro hc
        exact this (by rw [hg, hc])
    rw [skip_comment]
    simp only [hpeek, ne_eq, not_false_eq_true, if_true]
    apply ih
    intro j hj
    have hdata : (advance s).2.data = s.data := by
      unfold advance
      dsimp only
      split <;> split <;> rfl
    have hidx : s.index ≤ (advance s).2.index := by
      unfold advance
      dsimp only
      split <;> split <;> simp
    rw [hdata]
    exact hs j (Nat.le_trans hidx hj)

/-- Claim C7 (evaluation at the failing input): on the input consisting
of the single character # — a comment not terminated by a newline —
next_token never returns: for every fuel value the embedded scanner
reports fuel exhaustion, because skip_comment loops forever at end of
input (peek yields NUL, never newline, and advance no longer moves).
The claim asserts every call terminates and reaches Eof. -/
theorem claim_C7_unterminated_comment_loops :
    ∀ n, next_token n (new_scanner ['#']) = none := by
  intro n
  cases n with
  | zero => rfl
  | succ m =>
    have hsc : skip_comment (m + 1) (new_scanner ['#']) = none := by
      apply skip_comment_no_newline_none
      intro j hj
      match j with
      | 0 => simp [new_scanner]
      | j + 1 => simp [new_scanner]
    have hscw : skip_comments_and_whitespace (m + 1) (new_scanner ['#']) = none := by
      rw [skip_comments_and_whitespace]
      have hsw : skip_whitespace (m + 1) (new_scanner ['#']) =
          some (new_scanner ['#']) := by
        rw [skip_whitespace]
        simp [peek, new_scanner, rust_is_whitespace]
      rw [hsw]
      have hp : peek (new_scanner ['#']) = '#' := by
        simp [peek, new_scanner]
      simp only [Option.bind_eq_bind, Option.some_bind, hp, if_pos]
      rw [hsc]
      rfl
    unfold next_token
    rw [hscw]
    rfl

end Minilang

namespace Minilang

open Typecheck

/-- Claim C8: the type checker is fail-fast.  (1) An error while
checking the declarations is returned by tc_program unchanged, with the
tables exactly as the failing declaration left them — no statement is
visited.  (2, 3) An error while checking a statement (declaration)
sequence is unaffected by any further statements (declarations) after
it: the returned error and tables are identical whatever follows, so no
entry is added for any later sibling.  (4) An error in the left operand
of a Binop aborts tc_expr with that error and the tables the failing
subexpression left — the parent node adds no entry after the error. -/
theorem claim_C8_fail_fast :
    (∀ (p : Program) (st : TcState) (er : Error) (st1 : TcState),
      tc_decls st p.decls = TcRes.fail er st1 →
      tc_program st p = TcRes.fail er st1) ∧
    (∀ (xs ys : List Stmt) (st : TcState) (er : Error) (st1 : TcState),
      tc_stmts st xs = TcRes.fail er st1 →
      tc_stmts st (xs ++ ys) = TcRes.fail er st1) ∧
    (∀ (xs ys : List Decl) (st : TcState) (er : Error) (st1 : TcState),
      tc_decls st xs = TcRes.fail er st1 →
      tc_decls st (xs ++ ys) = TcRes.fail er st1) ∧
    (∀ (st : TcState) (pos : Pos) (op : Binop) (e1 e2 : Expr) (er : Error)
      (st1 : TcState),
      tc_expr st e1 = TcRes.fail er st1 →
      tc_expr st (Expr.Binop pos op e1 e2) = TcRes.fail er st1) := by
  refine ⟨?_, ?_, ?_, ?_⟩
  · intro p st er st1 h
    unfold tc_program
    rw [h]
  · intro xs
    induction xs with
    | nil =>
      intro ys st er st1 h
      simp [tc_stmts] at h
    | cons s rest ih =>
      intro ys st er st1 h
      rw [List.cons_append, tc_stmts]
      rw [tc_stmts] at h
      cases hs : tc_stmt st s with
      | ok u st2 =>
        cases u
        rw [hs] at h
        exact ih ys st2 er st1 h
      | fail er2 st2 =>
        rw [hs] at h
        exact h
      | stuck =>
        rw [hs] at h
        simp at h
  · intro xs
    induction xs with
    | nil =>
      intro ys st er st1 h
      simp [tc_decls] at h
    | cons d rest ih =>
      intro ys st er st1 h
      rw [List.cons_append, tc_decls]
      rw [tc_decls] at h
      cases hd : tc_decl st d with
      | ok u st2 =>
        cases u
        rw [hd] at h
        exact ih ys st2 er st1 h
      | fail er2 st2 =>
        rw [hd] at h
        exact h
      | stuck =>
        rw [hd] at h
        simp at h
  · intro st pos op e1 e2 er st1 h
    rw [tc_expr]
    rw [h]

/-- Witness for claim C8: checking the single statement read x with an
empty symbol table fails with UndeclaredVariable and leaves the tables
empty; appending a further statement read y changes nothing about that
outcome — instantiating part 2 of the fail-fast theorem. -/
theorem claim_C8_fail_fast_witness :
    tc_stmts new_tc [Stmt.Read (pc 1) "x"] =
      TcRes.fail (Error.UndeclaredVariable (pc 1) "x") new_tc ∧
    tc_stmts new_tc ([Stmt.Read (pc 1) "x"] ++ [Stmt.Read (pc 2) "y"]) =
      TcRes.fail (Error.UndeclaredVariable (pc 1) "x") new_tc :=
  ⟨rfl, claim_C8_fail_fast.2.1 [Stmt.Read (pc 1) "x"] [Stmt.Read (pc 2) "y"]
    new_tc (Error.UndeclaredVariable (pc 1) "x") new_tc rfl⟩

end Minilang

namespace Minilang

open Typecheck

/-- Helper: tc_expr never writes to the symbol table — a successful
visit changes only expr_table. -/
theorem tc_expr_ok_symtable :
    ∀ (e : Expr) (st : TcState) (ty : Ty) (st1 : TcState),
      tc_expr st e = TcRes.ok ty st1 → st1.symtable = st.symtable := by
  intro e
  induction e with
  | Id p id =>
    intro st ty st1 h
    rw [tc_expr] at h
    split at h
    · cases h; rfl
    · cases h
  | Int p v =>
    intro st ty st1 h
    rw [tc_expr] at h
    cases h; rfl
  | Float p v =>
    intro st ty st1 h
    rw [tc_expr] at h
    cases h; rfl
  | Negate p sub ih =>
    intro st ty st1 h
    rw [tc_expr] at h
    split at h
    next t2 st2 hs =>
      cases h
      simpa using ih _ _ _ hs
    next => cases h
    next => cases h
  | Binop p op e1 e2 ih1 ih2 =>
    intro st ty st1 h
    rw [tc_expr] at h
    split at h
    next t1 stA h1 =>
      split at h
      next t2 stB h2 =>
        have hA := ih1 _ _ _ h1
        have hB := ih2 _ _ _ h2
        split at h <;> first
          | (cases h; simp [hA, hB])
          | cases h
      next => cases h
      next => cases h
    next => cases h
    next => cases h

/-- Claim C4: for an assignment whose variable is declared with type
dty and whose right-hand side types to ety, tc_stmt_assign accepts
exactly the pairings (Int, Int), (Float, Int) and (Float, Float) — the
result is ok with the state the right-hand side left — and on the
pairing (Int, Float) it fails with UnexpectedType whose expected field
is the declared type Int and whose actual field is the expression type
Float, at the assignment's position. -/
theorem claim_C4_assign_compatibility :
    ∀ (st : TcState) (pos : Pos) (id : String) (e : Expr) (dty ety : Ty)
      (st1 : TcState),
      tc_expr st e = TcRes.ok ety st1 →
      lookupA st.symtable id = some dty →
      ((tc_stmt_assign st (Stmt.Assign pos id e) = TcRes.ok () st1 ↔
        ((dty = Ty.Int ∧ ety = Ty.Int) ∨ (dty = Ty.Float ∧ ety = Ty.Int) ∨
         (dty = Ty.Float ∧ ety = Ty.Float))) ∧
       (dty = Ty.Int → ety = Ty.Float →
        tc_stmt_assign st (Stmt.Assign pos id e) =
          TcRes.fail (Error.UnexpectedType pos Ty.Int Ty.Float) st1)) := by
  intro st pos id e dty ety st1 he hl
  have hsym : st1.symtable = st.symtable := tc_expr_ok_symtable e st ety st1 he
  have hl1 : lookupA st1.symtable id = some dty := by rw [hsym]; exact hl
  rw [tc_stmt_assign, he]
  dsimp only
  rw [hl1]
  cases dty <;> cases ety <;> simp

/-- Witness for claim C4, the shape of spec Scenario B: with x declared
Int, assigning the float literal 1.5 to x fails with
UnexpectedType(expected Int, actual Float) at the assignment's
position, the expression-table entry for the literal already
written. -/
theorem claim_C4_assign_compatibility_witness :
    tc_expr ⟨[("x", Ty.Int)], []⟩ (Expr.Float (pc 5) ⟨"1.5"⟩) =
      TcRes.ok Ty.Float ⟨[("x", Ty.Int)], [(Expr.Float (pc 5) ⟨"1.5"⟩, Ty.Float)]⟩ ∧
    lookupA (⟨[("x", Ty.Int)], []⟩ : TcState).symtable "x" = some Ty.Int ∧
    tc_stmt_assign ⟨[("x", Ty.Int)], []⟩
        (Stmt.Assign (pc 1) "x" (Expr.Float (pc 5) ⟨"1.5"⟩)) =
      TcRes.fail (Error.UnexpectedType (pc 1) Ty.Int Ty.Float)
        ⟨[("x", Ty.Int)], [(Expr.Float (pc 5) ⟨"1.5"⟩, Ty.Float)]⟩ :=
  ⟨rfl, rfl,
    (claim_C4_assign_compatibility ⟨[("x", Ty.Int)], []⟩ (pc 1) "x"
      (Expr.Float (pc 5) ⟨"1.5"⟩) Ty.Int Ty.Float
      ⟨[("x", Ty.Int)], [(Expr.Float (pc 5) ⟨"1.5"⟩, Ty.Float)]⟩
      rfl rfl).2 rfl rfl⟩

end Minilang


namespace Minilang

open Typecheck

theorem lookupA_insertA {α β : Type} [DecidableEq α]
    (t : List (α × β)) (k : α) (v : β) (k2 : α) :
    lookupA (insertA t k v) k2 = if k = k2 then some v else lookupA t k2 := by
  induction t with
  | nil => simp [insertA, lookupA]
  | cons p rest ih =>
    obtain ⟨k1, v1⟩ := p
    by_cases h1 : k1 = k
    · subst h1
      by_cases h2 : k1 = k2 <;> simp [insertA, lookupA, h2]
    · by_cases h2 : k1 = k2
      · subst h2
        have : ¬k = k1 := fun hh => h1 hh.symm
        simp [insertA, lookupA, h1, this]
      · simp [insertA, lookupA, h1, h2, ih]

theorem tblMono_insert (st : TcState) (e : Expr) (ty : Ty) :
    TblMono st { st with expr_table := insertA st.expr_table e ty } := by
  intro k hk
  simp only [lookupA_insertA]
  split
  · simp
  · exact hk

theorem lookupA_insertA_self_isSome (t : Exprtable) (e : Expr) (ty : Ty) :
    (lookupA (insertA t e ty) e).isSome := by
  simp [lookupA_insertA]

/-- Helper: a successful tc_expr only grows the domain of the
expression-type table and leaves an entry for the visited node and all
its subnodes. -/
theorem tc_expr_ok_covers :
    ∀ (e : Expr) (st : TcState) (ty : Ty) (st1 : TcState),
      tc_expr st e = TcRes.ok ty st1 →
      TblMono st st1 ∧
      ∀ e2 ∈ sub_exprs e, (lookupA st1.expr_table e2).isSome := by
  intro e
  induction e with
  | Id p id =>
    intro st ty st1 h
    rw [tc_expr] at h
    split at h
    next t hl =>
      cases h
      refine ⟨tblMono_insert st _ _, ?_⟩
      intro e2 he2
      simp only [sub_exprs, List.mem_singleton] at he2
      subst he2
      exact lookupA_insertA_self_isSome _ _ _
    next => cases h
  | Int p v =>
    intro st ty st1 h
    rw [tc_expr] at h
    cases h
    refine ⟨tblMono_insert st _ _, ?_⟩
    intro e2 he2
    simp only [sub_exprs, List.mem_singleton] at he2
    subst he2
    exact lookupA_insertA_self_isSome _ _ _
  | Float p v =>
    intro st ty st1 h
    rw [tc_expr] at h
    cases h
    refine ⟨tblMono_insert st _ _, ?_⟩
    intro e2 he2
    simp only [sub_exprs, List.mem_singleton] at he2
    subst he2
    exact lookupA_insertA_self_isSome _ _ _
  | Negate p sub ih =>
    intro st ty st1 h
    rw [tc_expr] at h
    split at h
    next t2 st2 hs =>
      cases h
      obtain ⟨hmono, hcov⟩ := ih _ _ _ hs
      refine ⟨fun k hk => tblMono_insert st2 _ _ k (hmono k hk), ?_⟩
      intro e2 he2
      simp only [sub_exprs, List.mem_cons] at he2
      rcases he2 with rfl | he2
      · exact lookupA_insertA_self_isSome _ _ _
      · exact tblMono_insert st2 _ _ e2 (hcov e2 he2)
    next => cases h
    next => cases h
  | Binop p op e1 e2 ih1 ih2 =>
    intro st ty st1 h
    rw [tc_expr] at h
    split at h
    next t1 stA h1 =>
      split at h
      next t2 stB h2 =>
        obtain ⟨hm1, hc1⟩ := ih1 _ _ _ h1
        obtain ⟨hm2, hc2⟩ := ih2 _ _ _ h2
        have main :
            ∀ (tv : Ty),
              TblMono st
                { stB with expr_table := insertA stB.expr_table (Expr.Binop p op e1 e2) tv } ∧
              ∀ e3 ∈ sub_exprs (Expr.Binop p op e1 e2),
                (lookupA (insertA stB.expr_table (Expr.Binop p op e1 e2) tv) e3).isSome := by
          intro tv
          constructor
          · intro k hk
            exact tblMono_insert stB _ _ k (hm2 k (hm1 k hk))
          · intro e3 he3
            simp only [sub_exprs, List.mem_cons, List.mem_append] at he3
            rcases he3 with rfl | he3 | he3
            · exact lookupA_insertA_self_isSome _ _ _
            · exact tblMono_insert stB _ _ e3 (hm2 e3 (hc1 e3 he3))
            · exact tblMono_insert stB _ _ e3 (hc2 e3 he3)
        split at h
        · cases h; exact main Ty.Int
        · cases h; exact main Ty.Float
        · cases h; exact main Ty.Float
        · cases h; exact main Ty.Float
        · cases h
      next => cases h
      next => cases h
    next => cases h
    next => cases h

end Minilang

namespace Minilang

open Typecheck

theorem tblMono_trans {st1 st2 st3 : TcState} :
    TblMono st1 st2 → TblMono st2 st3 → TblMono st1 st3 :=
  fun h1 h2 k hk => h2 k (h1 k hk)

/-- Helper: a successful tc_stmt (tc_stmts) only grows the domain of
the expression-type table and leaves an entry for every expression
node of the statement (statement list). -/
theorem tc_stmt_covers :
    (∀ (st : TcState) (s : Stmt), ∀ st1, tc_stmt st s = TcRes.ok () st1 →
      TblMono st st1 ∧ ∀ e2 ∈ stmt_exprs s, (lookupA st1.expr_table e2).isSome) ∧
    (∀ (st : TcState) (xs : List Stmt), ∀ st1, tc_stmts st xs = TcRes.ok () st1 →
      TblMono st st1 ∧ ∀ e2 ∈ stmts_exprs xs, (lookupA st1.expr_table e2).isSome) := by
  refine tc_stmt.mutual_induct
    (fun st s => ∀ st1, tc_stmt st s = TcRes.ok () st1 →
      TblMono st st1 ∧ ∀ e2 ∈ stmt_exprs s, (lookupA st1.expr_table e2).isSome)
    (fun st xs => ∀ st1, tc_stmts st xs = TcRes.ok () st1 →
      TblMono st st1 ∧ ∀ e2 ∈ stmts_exprs xs, (lookupA st1.expr_table e2).isSome)
    ?_ ?_ ?_ ?_ ?_ ?_ ?_ ?_ ?_ ?_ ?_ ?_ ?_ ?_ ?_ ?_ ?_ ?_
  · -- Assign
    intro st pos id e st1 h
    rw [tc_stmt, tc_stmt_assign] at h
    split at h
    next ety stE hexpr =>
      split at h
      next dty hlk =>
        obtain ⟨hm, hc⟩ := tc_expr_ok_covers e st ety stE hexpr
        split at h <;> cases h <;>
          exact ⟨hm, fun e2 he2 => hc e2 (by simpa [stmt_exprs] using he2)⟩
      next => cases h
    next => cases h
    next => cases h
  · -- Read
    intro st pos id st1 h
    rw [tc_stmt, tc_stmt_read] at h
    split at h
    · cases h
      exact ⟨fun k hk => hk, by simp [stmt_exprs]⟩
    · cases h
  · -- Print
    intro st pos e st1 h
    rw [tc_stmt, tc_stmt_print] at h
    split at h
    next t stE hexpr =>
      cases h
      obtain ⟨hm, hc⟩ := tc_expr_ok_covers e st t st1 hexpr
      exact ⟨hm, fun e2 he2 => hc e2 (by simpa [stmt_exprs] using he2)⟩
    next => cases h
    next => cases h
  · -- If, both branches ok
    intro st pos e then_stmts else_stmts stT stT2 hthen hexpr ih_then ih_else st1 h
    rw [tc_stmt, hexpr] at h
    dsimp only at h
    rw [hthen] at h
    obtain ⟨hmE, hcE⟩ := tc_expr_ok_covers e st Ty.Int stT hexpr
    obtain ⟨hmT, hcT⟩ := ih_then stT2 hthen
    obtain ⟨hmF, hcF⟩ := ih_else st1 h
    refine ⟨tblMono_trans hmE (tblMono_trans hmT hmF), ?_⟩
    intro e2 he2
    simp only [stmt_exprs, List.mem_append] at he2
    rcases he2 with (he2 | he2) | he2
    · exact hmF e2 (hmT e2 (hcE e2 he2))
    · exact hmF e2 (hcT e2 he2)
    · exact hcF e2 he2
  · -- If, then branch fails
    intro st pos e then_stmts else_stmts stT er stT2 hthen hexpr ih_then st1 h
    rw [tc_stmt, hexpr] at h
    dsimp only at h
    rw [hthen] at h
    cases h
  · -- If, then branch stuck
    intro st pos e then_stmts else_stmts stT hthen hexpr ih_then st1 h
    rw [tc_stmt, hexpr] at h
    dsimp only at h
    rw [hthen] at h
    cases h
  · -- If, condition not Int
    intro st pos e then_stmts else_stmts ty stT hexpr hty st1 h
    rw [tc_stmt, hexpr] at h
    dsimp only at h
    cases ty with
    | Int => exact absurd rfl hty
    | Float => cases h
    | Void => cases h
  · -- If, condition fails
    intro st pos e then_stmts else_stmts er stT hexpr st1 h
    rw [tc_stmt, hexpr] at h
    cases h
  · -- If, condition stuck
    intro st pos e then_stmts else_stmts hexpr st1 h
    rw [tc_stmt, hexpr] at h
    cases h
  · -- While ok
    intro st pos e stmts stT hexpr ih_body st1 h
    rw [tc_stmt, hexpr] at h
    dsimp only at h
    obtain ⟨hmE, hcE⟩ := tc_expr_ok_covers e st Ty.Int stT hexpr
    obtain ⟨hmB, hcB⟩ := ih_body st1 h
    refine ⟨tblMono_trans hmE hmB, ?_⟩
    intro e2 he2
    simp only [stmt_exprs, List.mem_append] at he2
    rcases he2 with he2 | he2
    · exact hmB e2 (hcE e2 he2)
    · exact hcB e2 he2
  · -- While, condition not Int
    intro st pos e stmts ty stT hexpr hty st1 h
    rw [tc_stmt, hexpr] at h
    dsimp only at h
    cases ty with
    | Int => exact absurd rfl hty
    | Float => cases h
    | Void => cases h
  · -- While, condition fails
    intro st pos e stmts er stT hexpr st1 h
    rw [tc_stmt, hexpr] at h
    cases h
  · -- While, condition stuck
    intro st pos e stmts hexpr st1 h
    rw [tc_stmt, hexpr] at h
    cases h
  · -- Return: stuck
    intro st pos oe st1 h
    rw [tc_stmt] at h
    cases h
  · -- nil
    intro st st1 h
    rw [tc_stmts] at h
    cases h
    exact ⟨fun k hk => hk, by simp [stmts_exprs]⟩
  · -- cons, head ok
    intro st s rest st2 hs ih1 ih2 st1 h
    rw [tc_stmts, hs] at h
    obtain ⟨hm1, hc1⟩ := ih1 st2 hs
    obtain ⟨hm2, hc2⟩ := ih2 st1 h
    refine ⟨tblMono_trans hm1 hm2, ?_⟩
    intro e2 he2
    simp only [stmts_exprs, List.mem_append] at he2
    rcases he2 with he2 | he2
    · exact hm2 e2 (hc1 e2 he2)
    · exact hc2 e2 he2
  · -- cons, head fails
    intro st s rest er st2 hs ih1 st1 h
    rw [tc_stmts, hs] at h
    cases h
  · -- cons, head stuck
    intro st s rest hs ih1 st1 h
    rw [tc_stmts, hs] at h
    cases h

/-- Helper: checking declarations never touches the expression-type
table. -/
theorem tc_decls_expr_table :
    ∀ (ds : List Decl) (st st1 : TcState),
      tc_decls st ds = TcRes.ok () st1 → st1.expr_table = st.expr_table := by
  intro ds
  induction ds with
  | nil =>
    intro st st1 h
    rw [tc_decls] at h
    cases h
    rfl
  | cons d rest ih =>
    intro st st1 h
    rw [tc_decls] at h
    cases hd : tc_decl st d with
    | ok u st2 =>
      cases u
      rw [hd] at h
      have h2 := ih st2 st1 h
      rw [tc_decl] at hd
      split at hd
      · cases hd
      · cases hd
        rw [h2]
    | fail er st2 => rw [hd] at h; cases h
    | stuck => rw [hd] at h; cases h

/-- Claim C3 (amended): the expression-type table is keyed by the
expression value itself, and after a successful tc_program every
expression node value occurring in the program is a valid key of the
final table. -/
theorem claim_C3_expr_table_covers :
    ∀ (p : Program) (st st1 : TcState),
      tc_program st p = TcRes.ok () st1 →
      ∀ e ∈ program_exprs p, ∃ ty, lookupA st1.expr_table e = some ty := by
  intro p st st1 h e he
  rw [tc_program] at h
  cases hd : tc_decls st p.decls with
  | ok u st2 =>
    cases u
    rw [hd] at h
    have hc := (tc_stmt_covers.2 st2 p.stmts st1 h).2 e (by simpa [program_exprs] using he)
    exact Option.isSome_iff_exists.mp hc
  | fail er st2 => rw [hd] at h; cases h
  | stuck => rw [hd] at h; cases h

/-- Witness for claim C3: the program var x : int ; print x ;
typechecks, and the expression Id x (position 1:20) is a valid key of
the resulting expression-type table — instantiating the coverage
theorem at that program and expression. -/
theorem claim_C3_expr_table_covers_witness :
    tc_program new_tc ok_program =
      TcRes.ok () ⟨[("x", Ty.Int)], [(Expr.Id (pc 20) "x", Ty.Int)]⟩ ∧
    ∃ ty, lookupA
      (⟨[("x", Ty.Int)], [(Expr.Id (pc 20) "x", Ty.Int)]⟩ : TcState).expr_table
      (Expr.Id (pc 20) "x") = some ty :=
  ⟨rfl, claim_C3_expr_table_covers ok_program new_tc
    ⟨[("x", Ty.Int)], [(Expr.Id (pc 20) "x", Ty.Int)]⟩ rfl
    (Expr.Id (pc 20) "x") (by simp [program_exprs, ok_program, stmts_exprs, stmt_exprs, sub_exprs])⟩

end Minilang


namespace Minilang

open Scanner

/-- Claim C6 (amended): whenever the scanner's current character after
skipping whitespace and comments is one of the NINE characters
+ - * / = ( ) : ; (the comma has no arm in this scanner), next_token
returns the corresponding single-character token, positioned at the
pre-scan cursor, and consumes exactly that one character (the index
advances by one, the column by one); it never returns IllegalCharacter
for these nine. -/
theorem claim_C6_single_char_tokens :
    ∀ (n : Nat) (s s1 : SState) (c : Char),
      skip_comments_and_whitespace n s = some s1 →
      s1.data.get? s1.index = some c →
      c ∈ ['+', '-', '*', '/', '=', '(', ')', ':', ';'] →
      next_token n s = some (Except.ok
        (⟨single_char_type c, none, s1.curr_pos⟩,
         ⟨s1.data, s1.index + 1, s1.curr_pos,
          ⟨s1.curr_pos.line, s1.curr_pos.col + 1⟩⟩)) := by
  intro n s s1 c hskip hget hc
  have hlt : s1.index < s1.data.length := by
    by_contra hge
    rw [List.get?_eq_none.mpr (Nat.le_of_not_lt hge)] at hget
    cases hget
  have hnle : ¬ s1.data.length ≤ s1.index := Nat.not_le.mpr hlt
  have hget2 : s1.data[s1.index]? = some c := by
    rw [← List.get?_eq_getElem?]
    exact hget
  unfold next_token
  rw [hskip]
  simp only [Option.bind_eq_bind, Option.some_bind]
  fin_cases hc <;>
    simp [is_eof, hnle, peek, hget2, single_char_tok, empty_tok, advance,
      single_char_type]

/-- Witness for claim C6: on the one-character input + the scanner
skips nothing and returns the Plus token, consuming one character —
instantiating the single-character theorem at that input. -/
theorem claim_C6_single_char_tokens_witness :
    skip_comments_and_whitespace 5 (new_scanner ['+']) = some (new_scanner ['+']) ∧
    (new_scanner ['+']).data.get? (new_scanner ['+']).index = some '+' ∧
    next_token 5 (new_scanner ['+']) = some (Except.ok
      (⟨TokenType.Plus, none, ⟨1, 1⟩⟩, ⟨['+'], 1, ⟨1, 1⟩, ⟨1, 2⟩⟩)) :=
  ⟨rfl, rfl, claim_C6_single_char_tokens 5 (new_scanner ['+']) (new_scanner ['+']) '+'
    rfl rfl (by decide)⟩

end Minilang


namespace Minilang

open Parser

theorem ok_bind {ε α β : Type} (a : α) (f : α → Except ε β) :
    (Except.ok a >>= f) = f a := rfl

theorem err_bind {ε α β : Type} (e : ε) (f : α → Except ε β) :
    ((Except.error e : Except ε α) >>= f) = Except.error e := rfl

theorem goodRes_err {α : Type} (ts : List Token) (e : Error) :
    GoodRes ts (Except.error (PErr.err e) : Except PErr (α × Nat)) := by
  unfold GoodRes
  exact ⟨(fun h => by cases h), (fun a j h => by cases h)⟩

theorem goodRes_fuel {α : Type} (ts : List Token) :
    GoodRes ts (Except.error PErr.outOfFuel : Except PErr (α × Nat)) := by
  unfold GoodRes
  exact ⟨(fun h => by cases h), (fun a j h => by cases h)⟩

theorem goodRes_pure {α : Type} (ts : List Token) (a : α) (j : Nat)
    (hj : j < ts.length) :
    GoodRes ts (Except.ok (a, j)) := by
  unfold GoodRes
  exact ⟨(fun h => by cases h), (fun a2 j2 h => by cases h; exact hj)⟩

theorem goodRes_bind {α β : Type} (ts : List Token) (r : Except PErr α)
    (k : α → Except PErr (β × Nat))
    (hr : r ≠ Except.error PErr.oob)
    (hk : ∀ a, r = Except.ok a → GoodRes ts (k a)) :
    GoodRes ts (r >>= k) := by
  cases r with
  | error e =>
    rw [err_bind]
    unfold GoodRes
    exact ⟨(fun h => by cases h; exact hr rfl), (fun a j h => by cases h)⟩
  | ok a =>
    rw [ok_bind]
    exact hk a rfl

theorem goodRes_bindP {α β : Type} (ts : List Token)
    (r : Except PErr (α × Nat)) (k : α × Nat → Except PErr (β × Nat))
    (hr : GoodRes ts r)
    (hk : ∀ a j, j < ts.length → r = Except.ok (a, j) → GoodRes ts (k (a, j))) :
    GoodRes ts (r >>= k) := by
  cases r with
  | error e =>
    rw [err_bind]
    unfold GoodRes
    exact ⟨(fun h => by cases h; exact hr.1 rfl), (fun a j h => by cases h)⟩
  | ok a =>
    rw [ok_bind]
    obtain ⟨a1, j1⟩ := a
    exact hk a1 j1 (hr.2 a1 j1 rfl) rfl

theorem read_tok_eq (ts : List Token) (i : Nat) (h : i < ts.length) :
    read_tok ts i = Except.ok (ts.get ⟨i, h⟩) := by
  rw [read_tok, List.get?_eq_get h]

theorem read_tok_ne_oob (ts : List Token) (i : Nat) (h : i < ts.length) :
    read_tok ts i ≠ Except.error PErr.oob := by
  rw [read_tok_eq ts i h]
  intro hh
  cases hh

theorem peek_eq (ts : List Token) (i : Nat) (t : TokenType) (h : i < ts.length) :
    peek ts i t = Except.ok (decide ((ts.get ⟨i, h⟩).typ = t)) := by
  rw [peek, read_tok_eq ts i h]
  rfl

theorem token_pos_eq (ts : List Token) (i : Nat) (h : i < ts.length) :
    token_pos ts i = Except.ok (ts.get ⟨i, h⟩).pos := by
  rw [token_pos, read_tok_eq ts i h]
  rfl

/-- Inside a wellformed token sequence, a non-Eof kind at position i
means position i+1 is still inside. -/
theorem wf_step (ts : List Token) (i : Nat) (hwf : WfTokens ts)
    (h : i < ts.length) (ht : (ts.get ⟨i, h⟩).typ ≠ TokenType.Eof) :
    i + 1 < ts.length := by
  rcases Nat.lt_or_ge (i + 1) ts.length with hlt | hge
  · exact hlt
  · have : i + 1 = ts.length := Nat.le_antisymm (Nat.succ_le_of_lt h) hge
    exact absurd ((hwf.2 i h).mpr this) ht

theorem eat_good (ts : List Token) (t : TokenType) (i : Nat)
    (hwf : WfTokens ts) (h : i < ts.length) (ht : t ≠ TokenType.Eof) :
    GoodRes ts (eat ts t i) := by
  rw [eat, peek_eq ts i t h, ok_bind]
  by_cases hp : (ts.get ⟨i, h⟩).typ = t
  · rw [decide_eq_true hp, if_pos rfl]
    apply goodRes_pure
    exact wf_step ts i hwf h (by rw [hp]; exact ht)
  · rw [decide_eq_false hp, if_neg (by simp)]
    apply goodRes_bind ts _ _ (read_tok_ne_oob ts i h)
    intro tok _
    exact goodRes_err ts _

theorem eat_ne_oob (ts : List Token) (t : TokenType) (i : Nat)
    (h : i < ts.length) :
    eat ts t i ≠ Except.error PErr.oob := by
  rw [eat, peek_eq ts i t h, ok_bind]
  by_cases hp : (ts.get ⟨i, h⟩).typ = t
  · rw [decide_eq_true hp, if_pos rfl]
    intro hh
    cases hh
  · rw [decide_eq_false hp, if_neg (by simp), read_tok_eq ts i h, ok_bind]
    intro hh
    cases hh

theorem eat_lexeme_good (ts : List Token) (t : TokenType) (i : Nat)
    (hwf : WfTokens ts) (h : i < ts.length) (ht : t ≠ TokenType.Eof) :
    GoodRes ts (eat_lexeme ts t i) := by
  rw [eat_lexeme, read_tok_eq ts i h, ok_bind]
  by_cases hp : (ts.get ⟨i, h⟩).typ = t
  · rw [if_pos hp]
    cases hlex : (ts.get ⟨i, h⟩).lexeme with
    | some l =>
      apply goodRes_pure
      exact wf_step ts i hwf h (by rw [hp]; exact ht)
    | none => exact goodRes_err ts _
  · rw [if_neg hp]
    exact goodRes_err ts _

theorem eat_type_good (ts : List Token) (i : Nat)
    (hwf : WfTokens ts) (h : i < ts.length) :
    GoodRes ts (eat_type ts i) := by
  rw [eat_type, read_tok_eq ts i h, ok_bind]
  by_cases h1 : (ts.get ⟨i, h⟩).typ = TokenType.TypeInt
  · rw [if_pos h1]
    exact goodRes_pure ts _ _ (wf_step ts i hwf h (by rw [h1]; intro hh; cases hh))
  · rw [if_neg h1]
    by_cases h2 : (ts.get ⟨i, h⟩).typ = TokenType.TypeFloat
    · rw [if_pos h2]
      exact goodRes_pure ts _ _ (wf_step ts i hwf h (by rw [h2]; intro hh; cases hh))
    · rw [if_neg h2]
      by_cases h3 : (ts.get ⟨i, h⟩).typ = TokenType.TypeVoid
      · rw [if_pos h3]
        exact goodRes_pure ts _ _ (wf_step ts i hwf h (by rw [h3]; intro hh; cases hh))
      · rw [if_neg h3]
        exact goodRes_err ts _

end Minilang

namespace Minilang

open Parser

theorem parse_int_good (ts : List Token) (i : Nat)
    (hwf : WfTokens ts) (h : i < ts.length) :
    GoodRes ts (parse_int ts i) := by
  rw [parse_int, token_pos_eq ts i h, ok_bind]
  apply goodRes_bindP ts _ _ (eat_lexeme_good ts TokenType.Int i hwf h
    (by intro hh; cases hh))
  intro lex j hj _
  dsimp only
  split
  · exact goodRes_pure ts _ _ hj
  · exact goodRes_err ts _

theorem parse_float_good (ts : List Token) (i : Nat)
    (hwf : WfTokens ts) (h : i < ts.length) :
    GoodRes ts (parse_float ts i) := by
  rw [parse_float, token_pos_eq ts i h, ok_bind]
  apply goodRes_bindP ts _ _ (eat_lexeme_good ts TokenType.Float i hwf h
    (by intro hh; cases hh))
  intro lex j hj _
  dsimp only
  split
  · exact goodRes_pure ts _ _ hj
  · exact goodRes_err ts _

theorem parse_id_good (ts : List Token) (i : Nat)
    (hwf : WfTokens ts) (h : i < ts.length) :
    GoodRes ts (parse_id ts i) := by
  rw [parse_id, token_pos_eq ts i h, ok_bind]
  apply goodRes_bindP ts _ _ (eat_lexeme_good ts TokenType.Id i hwf h
    (by intro hh; cases hh))
  intro lex j hj _
  exact goodRes_pure ts _ _ hj

theorem is_stmt_start_eq (ts : List Token) (i : Nat) (h : i < ts.length) :
    is_stmt_start ts i = Except.ok (decide ((ts.get ⟨i, h⟩).typ = TokenType.Id ∨
      (ts.get ⟨i, h⟩).typ = TokenType.If ∨ (ts.get ⟨i, h⟩).typ = TokenType.While ∨
      (ts.get ⟨i, h⟩).typ = TokenType.Read ∨ (ts.get ⟨i, h⟩).typ = TokenType.Print ∨
      (ts.get ⟨i, h⟩).typ = TokenType.Return)) := by
  rw [is_stmt_start, read_tok_eq ts i h]
  rfl

theorem next_is_add_eq (ts : List Token) (i : Nat) (h : i < ts.length) :
    next_is_add ts i = Except.ok (decide ((ts.get ⟨i, h⟩).typ = TokenType.Plus ∨
      (ts.get ⟨i, h⟩).typ = TokenType.Minus)) := by
  rw [next_is_add, read_tok_eq ts i h]
  rfl

theorem next_is_mul_eq (ts : List Token) (i : Nat) (h : i < ts.length) :
    next_is_mul ts i = Except.ok (decide ((ts.get ⟨i, h⟩).typ = TokenType.Star ∨
      (ts.get ⟨i, h⟩).typ = TokenType.Slash)) := by
  rw [next_is_mul, read_tok_eq ts i h]
  rfl

end Minilang

namespace Minilang

open Parser

theorem parse_expr_block_good (ts : List Token) (hwf : WfTokens ts) :
    ∀ f : Nat,
      (∀ i, i < ts.length → GoodRes ts (parse_expr f ts i)) ∧
      (∀ pos e i, i < ts.length → GoodRes ts (parse_expr_loop f ts pos e i)) ∧
      (∀ i, i < ts.length → GoodRes ts (parse_term f ts i)) ∧
      (∀ pos e i, i < ts.length → GoodRes ts (parse_term_loop f ts pos e i)) ∧
      (∀ i, i < ts.length → GoodRes ts (parse_factor f ts i)) := by
  intro f
  induction f with
  | zero =>
    exact ⟨(fun i h => goodRes_fuel ts), (fun pos e i h => goodRes_fuel ts),
      (fun i h => goodRes_fuel ts), (fun pos e i h => goodRes_fuel ts),
      (fun i h => goodRes_fuel ts)⟩
  | succ f ih =>
    obtain ⟨ihE, ihEL, ihT, ihTL, ihF⟩ := ih
    refine ⟨?_, ?_, ?_, ?_, ?_⟩
    · -- parse_expr
      intro i h
      rw [parse_expr]
      dsimp only
      rw [token_pos_eq ts i h, ok_bind]
      apply goodRes_bindP ts _ _ (ihT i h)
      intro e j hj _
      dsimp only
      exact ihEL (ts.get ⟨i, h⟩).pos e j hj
    · -- parse_expr_loop
      intro pos e i h
      rw [parse_expr_loop]
      dsimp only
      rw [next_is_add_eq ts i h, ok_bind]
      by_cases hadd : (ts.get ⟨i, h⟩).typ = TokenType.Plus ∨
          (ts.get ⟨i, h⟩).typ = TokenType.Minus
      · rw [decide_eq_true hadd, if_pos rfl]
        rw [peek_eq ts i TokenType.Plus h, ok_bind]
        by_cases hplus : (ts.get ⟨i, h⟩).typ = TokenType.Plus
        · rw [decide_eq_true hplus, if_pos rfl]
          apply goodRes_bindP ts _ _ (eat_good ts TokenType.Plus i hwf h
            (by intro hh; cases hh))
          intro u j hj _
          dsimp only
          apply goodRes_bindP ts _ _ (ihT j hj)
          intro t2 j2 hj2 _
          dsimp only
          exact ihEL pos _ j2 hj2
        · rw [decide_eq_false hplus, if_neg (by simp)]
          rw [peek_eq ts i TokenType.Minus h, ok_bind]
          by_cases hminus : (ts.get ⟨i, h⟩).typ = TokenType.Minus
          · rw [decide_eq_true hminus, if_pos rfl]
            apply goodRes_bindP ts _ _ (eat_good ts TokenType.Minus i hwf h
              (by intro hh; cases hh))
            intro u j hj _
            dsimp only
            apply goodRes_bindP ts _ _ (ihT j hj)
            intro t2 j2 hj2 _
            dsimp only
            exact ihEL pos _ j2 hj2
          · rw [decide_eq_false hminus, if_neg (by simp)]
            apply goodRes_bind ts _ _ (read_tok_ne_oob ts i h)
            intro tok _
            exact goodRes_err ts _
      · rw [decide_eq_false hadd, if_neg (by simp)]
        exact goodRes_pure ts _ _ h
    · -- parse_term
      intro i h
      rw [parse_term]
      dsimp only
      rw [token_pos_eq ts i h, ok_bind]
      apply goodRes_bindP ts _ _ (ihF i h)
      intro e j hj _
      dsimp only
      exact ihTL (ts.get ⟨i, h⟩).pos e j hj
    · -- parse_term_loop
      intro pos e i h
      rw [parse_term_loop]
      dsimp only
      rw [next_is_mul_eq ts i h, ok_bind]
      by_cases hmul : (ts.get ⟨i, h⟩).typ = TokenType.Star ∨
          (ts.get ⟨i, h⟩).typ = TokenType.Slash
      · rw [decide_eq_true hmul, if_pos rfl]
        rw [peek_eq ts i TokenType.Star h, ok_bind]
        by_cases hstar : (ts.get ⟨i, h⟩).typ = TokenType.Star
        · rw [decide_eq_true hstar, if_pos rfl]
          apply goodRes_bindP ts _ _ (eat_good ts TokenType.Star i hwf h
            (by intro hh; cases hh))
          intro u j hj _
          dsimp only
          apply goodRes_bindP ts _ _ (ihF j hj)
          intro t2 j2 hj2 _
          dsimp only
          exact ihTL pos _ j2 hj2
        · rw [decide_eq_false hstar, if_neg (by simp)]
          rw [peek_eq ts i TokenType.Slash h, ok_bind]
          by_cases hslash : (ts.get ⟨i, h⟩).typ = TokenType.Slash
          · rw [decide_eq_true hslash, if_pos rfl]
            apply goodRes_bindP ts _ _ (eat_good ts TokenType.Slash i hwf h
              (by intro hh; cases hh))
            intro u j hj _
            dsimp only
            apply goodRes_bindP ts _ _ (ihF j hj)
            intro t2 j2 hj2 _
            dsimp only
            exact ihTL pos _ j2 hj2
          · rw [decide_eq_false hslash, if_neg (by simp)]
            apply goodRes_bind ts _ _ (read_tok_ne_oob ts i h)
            intro tok _
            exact goodRes_err ts _
      · rw [decide_eq_false hmul, if_neg (by simp)]
        exact goodRes_pure ts _ _ h
    · -- parse_factor
      intro i h
      rw [parse_factor]
      dsimp only
      rw [token_pos_eq ts i h, ok_bind]
      rw [peek_eq ts i TokenType.Int h, ok_bind]
      by_cases h1 : (ts.get ⟨i, h⟩).typ = TokenType.Int
      · rw [decide_eq_true h1, if_pos rfl]
        exact parse_int_good ts i hwf h
      · rw [decide_eq_false h1, if_neg (by simp)]
        rw [peek_eq ts i TokenType.Float h, ok_bind]
        by_cases h2 : (ts.get ⟨i, h⟩).typ = TokenType.Float
        · rw [decide_eq_true h2, if_pos rfl]
          exact parse_float_good ts i hwf h
        · rw [decide_eq_false h2, if_neg (by simp)]
          rw [peek_eq ts i TokenType.Id h, ok_bind]
          by_cases h3 : (ts.get ⟨i, h⟩).typ = TokenType.Id
          · rw [decide_eq_true h3, if_pos rfl]
            exact parse_id_good ts i hwf h
          · rw [decide_eq_false h3, if_neg (by simp)]
            rw [peek_eq ts i TokenType.LParen h, ok_bind]
            by_cases h4 : (ts.get ⟨i, h⟩).typ = TokenType.LParen
            · rw [decide_eq_true h4, if_pos rfl]
              apply goodRes_bindP ts _ _ (eat_good ts TokenType.LParen i hwf h
                (by intro hh; cases hh))
              intro u j hj _
              dsimp only
              apply goodRes_bindP ts _ _ (ihE j hj)
              intro e j2 hj2 _
              dsimp only
              apply goodRes_bindP ts _ _ (eat_good ts TokenType.RParen j2 hwf hj2
                (by intro hh; cases hh))
              intro u2 j3 hj3 _
              dsimp only
              exact goodRes_pure ts _ _ hj3
            · rw [decide_eq_false h4, if_neg (by simp)]
              rw [peek_eq ts i TokenType.Minus h, ok_bind]
              by_cases h5 : (ts.get ⟨i, h⟩).typ = TokenType.Minus
              · rw [decide_eq_true h5, if_pos rfl]
                apply goodRes_bindP ts _ _ (eat_good ts TokenType.Minus i hwf h
                  (by intro hh; cases hh))
                intro u j hj _
                dsimp only
                apply goodRes_bindP ts _ _ (ihE j hj)
                intro e j2 hj2 _
                dsimp only
                exact goodRes_pure ts _ _ hj2
              · rw [decide_eq_false h5, if_neg (by simp)]
                apply goodRes_bind ts _ _ (read_tok_ne_oob ts i h)
                intro tok _
                exact goodRes_err ts _

end Minilang

namespace Minilang

open Parser

theorem parse_read_good (ts : List Token) (i : Nat)
    (hwf : WfTokens ts) (h : i < ts.length) :
    GoodRes ts (parse_read ts i) := by
  rw [parse_read, token_pos_eq ts i h, ok_bind]
  apply goodRes_bindP ts _ _ (eat_good ts TokenType.Read i hwf h
    (by intro hh; cases hh))
  intro u j hj _
  dsimp only
  apply goodRes_bindP ts _ _ (eat_lexeme_good ts TokenType.Id j hwf hj
    (by intro hh; cases hh))
  intro id j2 hj2 _
  dsimp only
  apply goodRes_bindP ts _ _ (eat_good ts TokenType.Semicolon j2 hwf hj2
    (by intro hh; cases hh))
  intro u2 j3 hj3 _
  dsimp only
  exact goodRes_pure ts _ _ hj3

theorem parse_print_good (f : Nat) (ts : List Token) (i : Nat)
    (hwf : WfTokens ts) (h : i < ts.length) :
    GoodRes ts (parse_print f ts i) := by
  rw [parse_print, token_pos_eq ts i h, ok_bind]
  apply goodRes_bindP ts _ _ (eat_good ts TokenType.Print i hwf h
    (by intro hh; cases hh))
  intro u j hj _
  dsimp only
  apply goodRes_bindP ts _ _ ((parse_expr_block_good ts hwf f).1 j hj)
  intro e j2 hj2 _
  dsimp only
  apply goodRes_bindP ts _ _ (eat_good ts TokenType.Semicolon j2 hwf hj2
    (by intro hh; cases hh))
  intro u2 j3 hj3 _
  dsimp only
  exact goodRes_pure ts _ _ hj3

theorem parse_assign_good (f : Nat) (ts : List Token) (i : Nat)
    (hwf : WfTokens ts) (h : i < ts.length) :
    GoodRes ts (parse_assign f ts i) := by
  rw [parse_assign, token_pos_eq ts i h, ok_bind]
  apply goodRes_bindP ts _ _ (eat_lexeme_good ts TokenType.Id i hwf h
    (by intro hh; cases hh))
  intro id j hj _
  dsimp only
  apply goodRes_bindP ts _ _ (eat_good ts TokenType.Equal j hwf hj
    (by intro hh; cases hh))
  intro u j2 hj2 _
  dsimp only
  apply goodRes_bindP ts _ _ ((parse_expr_block_good ts hwf f).1 j2 hj2)
  intro e j3 hj3 _
  dsimp only
  apply goodRes_bindP ts _ _ (eat_good ts TokenType.Semicolon j3 hwf hj3
    (by intro hh; cases hh))
  intro u2 j4 hj4 _
  dsimp only
  exact goodRes_pure ts _ _ hj4

theorem parse_return_good (f : Nat) (ts : List Token) (i : Nat)
    (hwf : WfTokens ts) (h : i < ts.length) :
    GoodRes ts (parse_return f ts i) := by
  rw [parse_return, token_pos_eq ts i h, ok_bind]
  apply goodRes_bindP ts _ _ (eat_good ts TokenType.Return i hwf h
    (by intro hh; cases hh))
  intro u j hj _
  dsimp only
  rw [peek_eq ts j TokenType.Semicolon hj, ok_bind]
  by_cases hs : (ts.get ⟨j, hj⟩).typ = TokenType.Semicolon
  · rw [decide_eq_true hs, if_pos rfl]
    apply goodRes_bindP ts _ _ (eat_good ts TokenType.Semicolon j hwf hj
      (by intro hh; cases hh))
    intro u2 j2 hj2 _
    dsimp only
    exact goodRes_pure ts _ _ hj2
  · rw [decide_eq_false hs, if_neg (by simp)]
    apply goodRes_bindP ts _ _ ((parse_expr_block_good ts hwf f).1 j hj)
    intro e j2 hj2 _
    dsimp only
    apply goodRes_bindP ts _ _ (eat_good ts TokenType.Semicolon j2 hwf hj2
      (by intro hh; cases hh))
    intro u2 j3 hj3 _
    dsimp only
    exact goodRes_pure ts _ _ hj3

theorem parse_stmt_block_good (ts : List Token) (hwf : WfTokens ts) :
    ∀ f : Nat,
      (∀ i, i < ts.length → GoodRes ts (parse_stmts f ts i)) ∧
      (∀ i, i < ts.length → GoodRes ts (parse_stmt f ts i)) ∧
      (∀ i, i < ts.length → GoodRes ts (parse_if f ts i)) ∧
      (∀ i, i < ts.length → GoodRes ts (parse_while f ts i)) := by
  intro f
  induction f with
  | zero =>
    exact ⟨(fun i h => goodRes_fuel ts), (fun i h => goodRes_fuel ts),
      (fun i h => goodRes_fuel ts), (fun i h => goodRes_fuel ts)⟩
  | succ f ih =>
    obtain ⟨ihSS, ihS, ihIf, ihW⟩ := ih
    refine ⟨?_, ?_, ?_, ?_⟩
    · -- parse_stmts
      intro i h
      rw [parse_stmts]
      dsimp only
      rw [is_stmt_start_eq ts i h, ok_bind]
      by_cases hs : (ts.get ⟨i, h⟩).typ = TokenType.Id ∨
          (ts.get ⟨i, h⟩).typ = TokenType.If ∨
          (ts.get ⟨i, h⟩).typ = TokenType.While ∨
          (ts.get ⟨i, h⟩).typ = TokenType.Read ∨
          (ts.get ⟨i, h⟩).typ = TokenType.Print ∨
          (ts.get ⟨i, h⟩).typ = TokenType.Return
      · rw [decide_eq_true hs, if_pos rfl]
        apply goodRes_bindP ts _ _ (ihS i h)
        intro s j hj _
        dsimp only
        apply goodRes_bindP ts _ _ (ihSS j hj)
        intro rest j2 hj2 _
        dsimp only
        exact goodRes_pure ts _ _ hj2
      · rw [decide_eq_false hs, if_neg (by simp)]
        exact goodRes_pure ts _ _ h
    · -- parse_stmt
      intro i h
      rw [parse_stmt]
      rw [peek_eq ts i TokenType.Read h, ok_bind]
      by_cases h1 : (ts.get ⟨i, h⟩).typ = TokenType.Read
      · rw [decide_eq_true h1, if_pos rfl]
        exact parse_read_good ts i hwf h
      · rw [decide_eq_false h1, if_neg (by simp)]
        rw [peek_eq ts i TokenType.Print h, ok_bind]
        by_cases h2 : (ts.get ⟨i, h⟩).typ = TokenType.Print
        · rw [decide_eq_true h2, if_pos rfl]
          exact parse_print_good f ts i hwf h
        · rw [decide_eq_false h2, if_neg (by simp)]
          rw [peek_eq ts i TokenType.Id h, ok_bind]
          by_cases h3 : (ts.get ⟨i, h⟩).typ = TokenType.Id
          · rw [decide_eq_true h3, if_pos rfl]
            exact parse_assign_good f ts i hwf h
          · rw [decide_eq_false h3, if_neg (by simp)]
            rw [peek_eq ts i TokenType.If h, ok_bind]
            by_cases h4 : (ts.get ⟨i, h⟩).typ = TokenType.If
            · rw [decide_eq_true h4, if_pos rfl]
              exact ihIf i h
            · rw [decide_eq_false h4, if_neg (by simp)]
              rw [peek_eq ts i TokenType.While h, ok_bind]
              by_cases h5 : (ts.get ⟨i, h⟩).typ = TokenType.While
              · rw [decide_eq_true h5, if_pos rfl]
                exact ihW i h
              · rw [decide_eq_false h5, if_neg (by simp)]
                rw [peek_eq ts i TokenType.Return h, ok_bind]
                by_cases h6 : (ts.get ⟨i, h⟩).typ = TokenType.Return
                · rw [decide_eq_true h6, if_pos rfl]
                  exact parse_return_good f ts i hwf h
                · rw [decide_eq_false h6, if_neg (by simp)]
                  apply goodRes_bind ts _ _ (read_tok_ne_oob ts i h)
                  intro tok _
                  exact goodRes_err ts _
    · -- parse_if
      intro i h
      rw [parse_if]
      dsimp only
      rw [token_pos_eq ts i h, ok_bind]
      apply goodRes_bindP ts _ _ (eat_good ts TokenType.If i hwf h
        (by intro hh; cases hh))
      intro u j hj _
      dsimp only
      apply goodRes_bindP ts _ _ ((parse_expr_block_good ts hwf f).1 j hj)
      intro e j2 hj2 _
      dsimp only
      apply goodRes_bindP ts _ _ (eat_good ts TokenType.Then j2 hwf hj2
        (by intro hh; cases hh))
      intro u2 j3 hj3 _
      dsimp only
      apply goodRes_bindP ts _ _ (ihSS j3 hj3)
      intro then_stmts j4 hj4 _
      dsimp only
      apply goodRes_bindP ts _ _ (eat_good ts TokenType.Else j4 hwf hj4
        (by intro hh; cases hh))
      intro u3 j5 hj5 _
      dsimp only
      apply goodRes_bindP ts _ _ (ihSS j5 hj5)
      intro else_stmts j6 hj6 _
      dsimp only
      apply goodRes_bindP ts _ _ (eat_good ts TokenType.End j6 hwf hj6
        (by intro hh; cases hh))
      intro u4 j7 hj7 _
      dsimp only
      exact goodRes_pure ts _ _ hj7
    · -- parse_while
      intro i h
      rw [parse_while]
      dsimp only
      rw [token_pos_eq ts i h, ok_bind]
      apply goodRes_bindP ts _ _ (eat_good ts TokenType.While i hwf h
        (by intro hh; cases hh))
      intro u j hj _
      dsimp only
      apply goodRes_bindP ts _ _ ((parse_expr_block_good ts hwf f).1 j hj)
      intro e j2 hj2 _
      dsimp only
      apply goodRes_bindP ts _ _ (eat_good ts TokenType.Do j2 hwf hj2
        (by intro hh; cases hh))
      intro u2 j3 hj3 _
      dsimp only
      apply goodRes_bindP ts _ _ (ihSS j3 hj3)
      intro stmts j4 hj4 _
      dsimp only
      apply goodRes_bindP ts _ _ (eat_good ts TokenType.Done j4 hwf hj4
        (by intro hh; cases hh))
      intro u3 j5 hj5 _
      dsimp only
      exact goodRes_pure ts _ _ hj5

end Minilang

namespace Minilang

open Parser

theorem parse_var_decl_good (ts : List Token) (i : Nat)
    (hwf : WfTokens ts) (h : i < ts.length) :
    GoodRes ts (parse_var_decl ts i) := by
  rw [parse_var_decl, token_pos_eq ts i h, ok_bind]
  apply goodRes_bindP ts _ _ (eat_good ts TokenType.Var i hwf h
    (by intro hh; cases hh))
  intro u j hj _
  dsimp only
  apply goodRes_bindP ts _ _ (eat_lexeme_good ts TokenType.Id j hwf hj
    (by intro hh; cases hh))
  intro id j2 hj2 _
  dsimp only
  apply goodRes_bindP ts _ _ (eat_good ts TokenType.Colon j2 hwf hj2
    (by intro hh; cases hh))
  intro u2 j3 hj3 _
  dsimp only
  apply goodRes_bindP ts _ _ (eat_type_good ts j3 hwf hj3)
  intro ty j4 hj4 _
  dsimp only
  apply goodRes_bindP ts _ _ (eat_good ts TokenType.Semicolon j4 hwf hj4
    (by intro hh; cases hh))
  intro u3 j5 hj5 _
  dsimp only
  exact goodRes_pure ts _ _ hj5

theorem parse_var_decls_good (ts : List Token) (hwf : WfTokens ts) :
    ∀ f i, i < ts.length → GoodRes ts (parse_var_decls f ts i) := by
  intro f
  induction f with
  | zero => exact fun i h => goodRes_fuel ts
  | succ f ih =>
    intro i h
    rw [parse_var_decls]
    dsimp only
    rw [peek_eq ts i TokenType.Var h, ok_bind]
    by_cases h1 : (ts.get ⟨i, h⟩).typ = TokenType.Var
    · rw [decide_eq_true h1, if_pos rfl]
      apply goodRes_bindP ts _ _ (parse_var_decl_good ts i hwf h)
      intro d j hj _
      dsimp only
      apply goodRes_bindP ts _ _ (ih j hj)
      intro rest j2 hj2 _
      dsimp only
      exact goodRes_pure ts _ _ hj2
    · rw [decide_eq_false h1, if_neg (by simp)]
      exact goodRes_pure ts _ _ h

theorem parse_params_good (ts : List Token) (hwf : WfTokens ts) :
    ∀ f i, i < ts.length → GoodRes ts (parse_params f ts i) := by
  intro f
  induction f with
  | zero => exact fun i h => goodRes_fuel ts
  | succ f ih =>
    intro i h
    rw [parse_params]
    dsimp only
    rw [peek_eq ts i TokenType.Id h, ok_bind]
    by_cases h1 : (ts.get ⟨i, h⟩).typ = TokenType.Id
    · rw [decide_eq_true h1, if_pos rfl]
      apply goodRes_bindP ts _ _ (eat_lexeme_good ts TokenType.Id i hwf h
        (by intro hh; cases hh))
      intro id j hj _
      dsimp only
      apply goodRes_bindP ts _ _ (eat_good ts TokenType.Colon j hwf hj
        (by intro hh; cases hh))
      intro u j2 hj2 _
      dsimp only
      apply goodRes_bindP ts _ _ (eat_type_good ts j2 hwf hj2)
      intro ty j3 hj3 _
      dsimp only
      rw [peek_eq ts j3 TokenType.Comma hj3, ok_bind]
      by_cases h2 : (ts.get ⟨j3, hj3⟩).typ = TokenType.Comma
      · rw [decide_eq_true h2, if_pos rfl]
        apply goodRes_bindP ts _ _ (eat_good ts TokenType.Comma j3 hwf hj3
          (by intro hh; cases hh))
        intro u2 j4 hj4 _
        dsimp only
        apply goodRes_bindP ts _ _ (ih j4 hj4)
        intro rest j5 hj5 _
        dsimp only
        exact goodRes_pure ts _ _ hj5
      · rw [decide_eq_false h2, if_neg (by simp)]
        exact goodRes_pure ts _ _ hj3
    · rw [decide_eq_false h1, if_neg (by simp)]
      exact goodRes_pure ts _ _ h

theorem parse_func_decl_good (f : Nat) (ts : List Token) (i : Nat)
    (hwf : WfTokens ts) (h : i < ts.length) :
    GoodRes ts (parse_func_decl f ts i) := by
  rw [parse_func_decl, token_pos_eq ts i h, ok_bind]
  apply goodRes_bindP ts _ _ (eat_good ts TokenType.Function i hwf h
    (by intro hh; cases hh))
  intro u j hj _
  dsimp only
  apply goodRes_bindP ts _ _ (eat_lexeme_good ts TokenType.Id j hwf hj
    (by intro hh; cases hh))
  intro id j2 hj2 _
  dsimp only
  apply goodRes_bindP ts _ _ (eat_good ts TokenType.LParen j2 hwf hj2
    (by intro hh; cases hh))
  intro u2 j3 hj3 _
  dsimp only
  apply goodRes_bindP ts _ _ (parse_params_good ts hwf f j3 hj3)
  intro params j4 hj4 _
  dsimp only
  apply goodRes_bindP ts _ _ (eat_good ts TokenType.RParen j4 hwf hj4
    (by intro hh; cases hh))
  intro u3 j5 hj5 _
  dsimp only
  apply goodRes_bindP ts _ _ (eat_good ts TokenType.Colon j5 hwf hj5
    (by intro hh; cases hh))
  intro u4 j6 hj6 _
  dsimp only
  apply goodRes_bindP ts _ _ (eat_type_good ts j6 hwf hj6)
  intro ty j7 hj7 _
  dsimp only
  apply goodRes_bindP ts _ _ (parse_var_decls_good ts hwf f j7 hj7)
  intro decls j8 hj8 _
  dsimp only
  apply goodRes_bindP ts _ _ ((parse_stmt_block_good ts hwf f).1 j8 hj8)
  intro stmts j9 hj9 _
  dsimp only
  apply goodRes_bindP ts _ _ (eat_good ts TokenType.End j9 hwf hj9
    (by intro hh; cases hh))
  intro u5 j10 hj10 _
  dsimp only
  exact goodRes_pure ts _ _ hj10

theorem parse_decl_good (f : Nat) (ts : List Token) (i : Nat)
    (hwf : WfTokens ts) (h : i < ts.length) :
    GoodRes ts (parse_decl f ts i) := by
  rw [parse_decl]
  rw [peek_eq ts i TokenType.Var h, ok_bind]
  by_cases h1 : (ts.get ⟨i, h⟩).typ = TokenType.Var
  · rw [decide_eq_true h1, if_pos rfl]
    apply goodRes_bindP ts _ _ (parse_var_decl_good ts i hwf h)
    intro vd j hj _
    dsimp only
    exact goodRes_pure ts _ _ hj
  · rw [decide_eq_false h1, if_neg (by simp)]
    rw [peek_eq ts i TokenType.Function h, ok_bind]
    by_cases h2 : (ts.get ⟨i, h⟩).typ = TokenType.Function
    · rw [decide_eq_true h2, if_pos rfl]
      apply goodRes_bindP ts _ _ (parse_func_decl_good f ts i hwf h)
      intro fd j hj _
      dsimp only
      exact goodRes_pure ts _ _ hj
    · rw [decide_eq_false h2, if_neg (by simp)]
      apply goodRes_bind ts _ _ (read_tok_ne_oob ts i h)
      intro tok _
      exact goodRes_err ts _

theorem parse_decls_good (ts : List Token) (hwf : WfTokens ts) :
    ∀ f i, i < ts.length → GoodRes ts (parse_decls f ts i) := by
  intro f
  induction f with
  | zero => exact fun i h => goodRes_fuel ts
  | succ f ih =>
    intro i h
    rw [parse_decls]
    dsimp only
    apply goodRes_bind ts _ _ (read_tok_ne_oob ts i h)
    intro tok htok
    by_cases h1 : tok.typ = TokenType.Var ∨ tok.typ = TokenType.Function
    · rw [if_pos h1]
      apply goodRes_bindP ts _ _ (parse_decl_good f ts i hwf h)
      intro d j hj _
      dsimp only
      apply goodRes_bindP ts _ _ (ih j hj)
      intro rest j2 hj2 _
      dsimp only
      exact goodRes_pure ts _ _ hj2
    · rw [if_neg h1]
      exact goodRes_pure ts _ _ h

/-- Claim C10: for every nonempty token sequence whose last element is
the only Eof token, parse_program never performs an out-of-bounds token
access (the unchecked indexing of src/parser.rs never leaves the
vector): for every fuel value the result is an ok value or an error,
never the oob outcome.  Proved through the invariant that every parsing
function keeps the token index strictly inside the sequence (GoodRes). -/
theorem claim_C10_no_oob :
    ∀ (f : Nat) (ts : List Token), WfTokens ts →
      parse_program f ts 0 ≠ Except.error PErr.oob := by
  intro f ts hwf
  have h0 : 0 < ts.length := Nat.lt_of_lt_of_le Nat.zero_lt_one hwf.1
  rw [parse_program]
  have hdecls := parse_decls_good ts hwf f 0 h0
  cases hd : parse_decls f ts 0 with
  | error e =>
    rw [err_bind]
    intro hh
    cases hh
    exact hdecls.1 hd
  | ok a =>
    rw [ok_bind]
    obtain ⟨decls, j⟩ := a
    have hj : j < ts.length := hdecls.2 decls j hd
    dsimp only
    cases he : eat ts TokenType.Eof j with
    | error e2 =>
      rw [err_bind]
      intro hh
      cases hh
      exact eat_ne_oob ts TokenType.Eof j hj he
    | ok b =>
      rw [ok_bind]
      obtain ⟨u, j2⟩ := b
      dsimp only
      intro hh
      cases hh

theorem wf_singleton_eof : WfTokens [⟨TokenType.Eof, none, pc 1⟩] := by
  constructor
  · simp
  · intro i h
    have h1 : i = 0 := by
      have h2 : i < 1 := by simpa using h
      omega
    subst h1
    simp

/-- Witness for claim C10: the one-token sequence [Eof] is wellformed
and parse_program on it performs no out-of-bounds access —
instantiating the safety theorem there. -/
theorem claim_C10_no_oob_witness :
    WfTokens [⟨TokenType.Eof, none, pc 1⟩] ∧
    parse_program 5 [⟨TokenType.Eof, none, pc 1⟩] 0 ≠ Except.error PErr.oob :=
  ⟨wf_singleton_eof,
   claim_C10_no_oob 5 [⟨TokenType.Eof, none, pc 1⟩] wf_singleton_eof⟩

end Minilang
